import Mathlib

/-!
Shallow embedding of the fare-import and rule-consolidation code of the
navitia_model repository (src/enrich_ntfs_with_farev2.rs and
src/apply_rules/object_rule.rs), together with proofs settling the frozen
claims about it.

Modelling conventions:
- Rust `CollectionWithId<T>` and `Collection<T>` are modelled as `List T`
  (ordered, position-indexed); identifier lookup uses the `HasId` class which
  mirrors the Rust `Id<T>` trait.
- The `Report` is a list of structured entries; each constructor of
  `ReportEntry` stands for one `format!` message of the source together with
  its report category (all call sites here use the ObjectNotFound category).
- Fallible Rust functions returning `Result<..>` become `Except String ..`.
- Entity record shapes (objects.rs is not part of the source slice) are
  modelled from the spec, restricted to the attributes the core touches.
-/

/-- Structure mirroring the entity records of the spec data-model table.
Modelled from the spec: objects.rs is not in the source slice; the Network
record carries its identifier and a display name. -/
structure Network where
  id : String
  name : String
deriving DecidableEq

/-- Modelled from the spec: a Line references a network and a commercial mode. -/
structure Line where
  id : String
  network_id : String
  commercial_mode_id : String
deriving DecidableEq

/-- Modelled from the spec: a CommercialMode has an identifier and a name. -/
structure CommercialMode where
  id : String
  name : String
deriving DecidableEq

/-- Modelled from the spec: a PhysicalMode has an identifier and a name. -/
structure PhysicalMode where
  id : String
  name : String
deriving DecidableEq

/-- Modelled from the spec: a VehicleJourney references a physical mode. -/
structure VehicleJourney where
  id : String
  physical_mode_id : String
deriving DecidableEq

/-- Modelled from the spec: a StopArea record (only its identifier matters here). -/
structure StopArea where
  id : String
deriving DecidableEq

/-- Modelled from the spec: a Ticket record (only its identifier matters here). -/
structure Ticket where
  id : String
deriving DecidableEq

/-- Modelled from the spec: a TicketUse has an identifier and references a ticket. -/
structure TicketUse where
  id : String
  ticket_id : String
deriving DecidableEq

/-- Modelled from the spec: a TicketPrice references a ticket. -/
structure TicketPrice where
  ticket_id : String
deriving DecidableEq

/-- Enumeration mirroring ObjectType of objects.rs as used by the source:
the match in fill_ticket_use_perimeters distinguishes Network, Line and a
catch-all branch, so at least one further variant exists. -/
inductive ObjectType where
  | Network
  | Line
  | StopArea
  | StopPoint
deriving DecidableEq

/-- Enumeration mirroring RestrictionType of objects.rs as used by the source. -/
inductive RestrictionType where
  | OriginDestination
  | Zone
deriving DecidableEq

/-- Record mirroring TicketUsePerimeter: fields used by the source. -/
structure TicketUsePerimeter where
  ticket_use_id : String
  object_type : ObjectType
  object_id : String
deriving DecidableEq

/-- Record mirroring TicketUseRestriction: fields used by the source. -/
structure TicketUseRestriction where
  ticket_use_id : String
  restriction_type : RestrictionType
  use_origin : String
  use_destination : String
deriving DecidableEq

/-- Class mirroring the Rust Id trait: every identified entity exposes a
string identifier. -/
class HasId (α : Type) where
  getId : α → String

instance : HasId Network := ⟨Network.id⟩

instance : HasId Line := ⟨Line.id⟩

instance : HasId CommercialMode := ⟨CommercialMode.id⟩

instance : HasId PhysicalMode := ⟨PhysicalMode.id⟩

instance : HasId VehicleJourney := ⟨VehicleJourney.id⟩

instance : HasId StopArea := ⟨StopArea.id⟩

instance : HasId Ticket := ⟨Ticket.id⟩

instance : HasId TicketUse := ⟨TicketUse.id⟩

/-- Function mirroring CollectionWithId::contains_id. -/
def containsId {α : Type} [HasId α] (l : List α) (s : String) : Bool :=
  l.any (fun x => HasId.getId x == s)

/-- Function mirroring CollectionWithId::get (lookup by identifier). -/
def getById {α : Type} [HasId α] (l : List α) (s : String) : Option α :=
  l.find? (fun x => HasId.getId x == s)

/-- Report entries, modelled structurally: one constructor per format string
of the source, all raised with the ObjectNotFound category. -/
inductive ReportEntry where
  | networkNotFound (id : String)
  | lineNotFound (id : String)
  | originNotFound (id : String)
  | destinationNotFound (id : String)
  | emptyGroupedFrom (idKey : String) (id : String)
  | identifierNotFound (id : String)
  | ruleNotApplied (kind : String) (id : String)
deriving DecidableEq

/-- Report mirroring utils::Report: an ordered list of entries; add_error
appends at the end. -/
abbrev Report := List ReportEntry

/-- Structure mirroring model::Collections, restricted to the collections the
two source files touch. -/
structure Collections where
  networks : List Network
  lines : List Line
  commercial_modes : List CommercialMode
  physical_modes : List PhysicalMode
  vehicle_journeys : List VehicleJourney
  stop_areas : List StopArea
  tickets : List Ticket
  ticket_uses : List TicketUse
  ticket_prices : List TicketPrice
  ticket_use_perimeters : List TicketUsePerimeter
  ticket_use_restrictions : List TicketUseRestriction
deriving DecidableEq

/-- Collections value with every collection empty. -/
def emptyCollections : Collections :=
  ⟨[], [], [], [], [], [], [], [], [], [], []⟩

/-! ## Fare import (enrich_ntfs_with_farev2.rs) -/

/-- Loop body of fill_ticket_use_perimeters (lines 90-120 of the source): a
Network-typed record is pushed when the network lookup is_some() is false and
reported otherwise; a Line-typed record is ignored; any other record is pushed
when the line lookup is_some() is false and reported otherwise. -/
def perimStep (collections : Collections)
    (st : List TicketUsePerimeter × Report) (r : TicketUsePerimeter) :
    List TicketUsePerimeter × Report :=
  match r.object_type with
  | ObjectType.Network =>
    if (getById collections.networks r.object_id).isSome then
      (st.1, st.2 ++ [ReportEntry.networkNotFound r.object_id])
    else
      (st.1 ++ [r], st.2)
  | ObjectType.Line => st
  | _ =>
    if (getById collections.lines r.object_id).isSome then
      (st.1, st.2 ++ [ReportEntry.lineNotFound r.object_id])
    else
      (st.1 ++ [r], st.2)

/-- Record loop of fill_ticket_use_perimeters over the already-deserialized
rows of the file. -/
def fillPerimetersRecords (collections : Collections)
    (rows : List TicketUsePerimeter) (report : Report) :
    List TicketUsePerimeter × Report :=
  rows.foldl (perimStep collections) ([], report)

/-- Loop body of fill_ticket_use_restrictions (lines 150-182 of the source):
an OriginDestination record is dropped with one report entry when its origin
stop area is missing, otherwise dropped with one report entry when its
destination stop area is missing, otherwise pushed; a Zone record is always
pushed. -/
def restrStep (collections : Collections)
    (st : List TicketUseRestriction × Report) (r : TicketUseRestriction) :
    List TicketUseRestriction × Report :=
  match r.restriction_type with
  | RestrictionType.OriginDestination =>
    if (getById collections.stop_areas r.use_origin).isNone then
      (st.1, st.2 ++ [ReportEntry.originNotFound r.use_origin])
    else if (getById collections.stop_areas r.use_destination).isNone then
      (st.1, st.2 ++ [ReportEntry.destinationNotFound r.use_destination])
    else
      (st.1 ++ [r], st.2)
  | RestrictionType.Zone => (st.1 ++ [r], st.2)

/-- Record loop of fill_ticket_use_restrictions over the already-deserialized
rows of the file. -/
def fillRestrictionsRecords (collections : Collections)
    (rows : List TicketUseRestriction) (report : Report) :
    List TicketUseRestriction × Report :=
  rows.foldl (restrStep collections) ([], report)

/-- Function mirroring sanitize_tickets (lines 189-206): collect the
ticket_use_id values of the surviving perimeters and restrictions and retain
only the ticket prices whose ticket_id occurs among them. -/
def sanitize_tickets (collections : Collections) : Collections :=
  let ticket_ids :=
    collections.ticket_use_perimeters.map (fun t => t.ticket_use_id) ++
      collections.ticket_use_restrictions.map (fun t => t.ticket_use_id)
  { collections with
    ticket_prices :=
      collections.ticket_prices.filter (fun t => ticket_ids.contains t.ticket_id) }

/-! ### The archive layer

A fare archive maps each member file name to its list of CSV records when the
member exists. A CSV record is modelled as an association list from column
name to cell value; per-record deserialization mirrors serde: a record lacking
a required column (or holding an unknown enum value) fails, and failing
records are skipped by the skip_fail macro of the source. -/

/-- CSV record: column name to cell value. -/
abbrev Row := List (String × String)

/-- Fare archive: member file name to list of records, none when the member
is absent. -/
abbrev Archive := String → Option (List Row)

/-- Cell lookup in a CSV record. -/
def rowGet (r : Row) (k : String) : Option String :=
  (r.find? (fun p => p.1 == k)).map (fun p => p.2)

/-- Deserialization of an ObjectType cell. Modelled from the spec: the
object_type column holds Network or Line (other object types exist but are
not produced by fare files). -/
def parseObjectType : String → Option ObjectType
  | "Network" => some ObjectType.Network
  | "Line" => some ObjectType.Line
  | "StopArea" => some ObjectType.StopArea
  | "StopPoint" => some ObjectType.StopPoint
  | _ => none

/-- Deserialization of a RestrictionType cell. Modelled from the spec:
OriginDestination or Zone. -/
def parseRestrictionType : String → Option RestrictionType
  | "OriginDestination" => some RestrictionType.OriginDestination
  | "Zone" => some RestrictionType.Zone
  | _ => none

/-- Deserialization of a tickets.txt record. Modelled from the spec data
model: a Ticket carries its identifier. -/
def parseTicket (r : Row) : Option Ticket :=
  (rowGet r "ticket_id").map Ticket.mk

/-- Deserialization of a ticket_uses.txt record. -/
def parseTicketUse (r : Row) : Option TicketUse :=
  match rowGet r "ticket_use_id", rowGet r "ticket_id" with
  | some i, some t => some ⟨i, t⟩
  | _, _ => none

/-- Deserialization of a ticket_prices.txt record. -/
def parseTicketPrice (r : Row) : Option TicketPrice :=
  (rowGet r "ticket_id").map TicketPrice.mk

/-- Deserialization of a ticket_use_perimeters.txt record. -/
def parsePerimeter (r : Row) : Option TicketUsePerimeter :=
  match rowGet r "ticket_use_id", (rowGet r "object_type").bind parseObjectType,
      rowGet r "object_id" with
  | some u, some ot, some oid => some ⟨u, ot, oid⟩
  | _, _, _ => none

/-- Deserialization of a ticket_use_restrictions.txt record. -/
def parseRestriction (r : Row) : Option TicketUseRestriction :=
  match rowGet r "ticket_use_id",
      (rowGet r "restriction_type").bind parseRestrictionType,
      rowGet r "use_origin", rowGet r "use_destination" with
  | some u, some rt, some o, some d => some ⟨u, rt, o, d⟩
  | _, _, _, _ => none

/-- Duplicate-identifier test used by make_collection_with_id. -/
def hasDupIds {α : Type} [HasId α] : List α → Bool
  | [] => false
  | x :: xs => containsId xs (HasId.getId x) || hasDupIds xs

/-- Function mirroring make_collection_with_id: building a CollectionWithId
fails when two records share an identifier. -/
def make_collection_with_id {α : Type} [HasId α] (l : List α) :
    Except String (List α) :=
  if hasDupIds l then Except.error "identifier already exists" else Except.ok l

/-- Function mirroring fill_collection_with_id (lines 33-51): bail when the
member is absent, otherwise deserialize its records (skipping failing rows)
into a CollectionWithId. -/
def fill_collection_with_id {α : Type} [HasId α] (parse : Row → Option α)
    (archive : Archive) (file_name : String) : Except String (List α) :=
  match archive file_name with
  | none => Except.error (file_name ++ " not found")
  | some rows => make_collection_with_id (rows.filterMap parse)

/-- Function mirroring fill_collection (lines 53-70): bail when the member is
absent, otherwise deserialize its records (skipping failing rows). -/
def fill_collection {α : Type} (parse : Row → Option α)
    (archive : Archive) (file_name : String) : Except String (List α) :=
  match archive file_name with
  | none => Except.error (file_name ++ " not found")
  | some rows => Except.ok (rows.filterMap parse)

/-- Function mirroring fill_ticket_use_perimeters (lines 72-125): bail when
the member is absent, otherwise run the validation loop on its records. -/
def fill_ticket_use_perimeters (collections : Collections) (archive : Archive)
    (file_name : String) (report : Report) :
    Except String (List TicketUsePerimeter × Report) :=
  match archive file_name with
  | none => Except.error (file_name ++ " not found")
  | some rows =>
    Except.ok (fillPerimetersRecords collections (rows.filterMap parsePerimeter) report)

/-- Function mirroring fill_ticket_use_restrictions (lines 127-187): an
absent member yields the empty collection (logged only informationally),
otherwise the validation loop runs on its records. -/
def fill_ticket_use_restrictions (collections : Collections) (archive : Archive)
    (file_name : String) (report : Report) :
    Except String (List TicketUseRestriction × Report) :=
  match archive file_name with
  | none => Except.ok ([], report)
  | some rows =>
    Except.ok (fillRestrictionsRecords collections (rows.filterMap parseRestriction) report)

/-- Function mirroring read_farev2 (lines 208-234). Note that the source
passes the file name ticket_use_perimeters.txt to BOTH
fill_ticket_use_perimeters and fill_ticket_use_restrictions. -/
def read_farev2 (collections : Collections) (archive : Archive)
    (report : Report) : Except String (Collections × Report) :=
  match fill_collection_with_id parseTicket archive "tickets.txt" with
  | Except.error e => Except.error e
  | Except.ok tickets =>
    match fill_collection_with_id parseTicketUse archive "ticket_uses.txt" with
    | Except.error e => Except.error e
    | Except.ok ticket_uses =>
      match fill_collection parseTicketPrice archive "ticket_prices.txt" with
      | Except.error e => Except.error e
      | Except.ok ticket_prices =>
        let collections :=
          { collections with
            tickets := tickets, ticket_uses := ticket_uses,
            ticket_prices := ticket_prices }
        match fill_ticket_use_perimeters collections archive
            "ticket_use_perimeters.txt" report with
        | Except.error e => Except.error e
        | Except.ok (perimeters, report) =>
          let collections := { collections with ticket_use_perimeters := perimeters }
          match fill_ticket_use_restrictions collections archive
              "ticket_use_perimeters.txt" report with
          | Except.error e => Except.error e
          | Except.ok (restrictions, report) =>
            let collections :=
              { collections with ticket_use_restrictions := restrictions }
            Except.ok (sanitize_tickets collections, report)

/-! ## Rule consolidation (apply_rules/object_rule.rs) -/

/-- Structure mirroring ObjectProperties: the target-entity properties (a
serde_json Value restricted, as in every use the source makes of it, to an
object with string values) and the absorption list. -/
structure ObjectProperties where
  properties : List (String × String)
  grouped_from : List String
deriving DecidableEq

/-- Function mirroring ObjectProperties::check (lines 141-166): extract the
target identifier under the given key (a missing key is a hard error; the
non-string-value hard error of the source cannot arise in the string-map
model), and report an empty absorption list as a soft error yielding none. -/
def ObjectProperties.check (op : ObjectProperties) (id_key : String)
    (report : Report) : Except String (Option String × Report) :=
  match rowGet op.properties id_key with
  | none => Except.error ("Key " ++ id_key ++ " is required")
  | some id =>
    if op.grouped_from.isEmpty then
      Except.ok (none, report ++ [ReportEntry.emptyGroupedFrom id_key id])
    else
      Except.ok (some id, report)

/-- Loop of ObjectProperties::regroup (lines 168-189) over the absorption
list: an identifier absent from the collection is reported, a present one is
handed to the repoint closure f whose boolean result is accumulated with or.
The closure state sigma stands for the collections captured mutably by the
Rust closure. -/
def regroupLoop {α σ : Type} [HasId α] (collection : List α)
    (f : String → σ → σ × Bool) :
    List String → σ → Report → Bool → σ × Report × Bool
  | [], st, report, changed => (st, report, changed)
  | g :: rest, st, report, changed =>
    if containsId collection g then
      let r := f g st
      regroupLoop collection f rest r.1 report (r.2 || changed)
    else
      regroupLoop collection f rest st
        (report ++ [ReportEntry.identifierNotFound g]) changed

/-- Function mirroring ObjectProperties::regroup. -/
def ObjectProperties.regroup {α σ : Type} [HasId α] (op : ObjectProperties)
    (collection : List α) (report : Report) (f : String → σ → σ × Bool)
    (st : σ) : σ × Report × Bool :=
  regroupLoop collection f op.grouped_from st report false

/-- Function mirroring the per-rule retain call: drop every entity whose
identifier occurs in the absorption list. -/
def retainNotGrouped {α : Type} [HasId α] (l : List α) (gf : List String) :
    List α :=
  l.filter (fun x => !(gf.contains (HasId.getId x)))

/-- Function mirroring CollectionWithId::extend (the Extend impl of
typed_index_collection pushes each staged entity in turn, silently skipping
one whose identifier is already present). -/
def extendWithId {α : Type} [HasId α] (l : List α) (new : List α) : List α :=
  new.foldl
    (fun acc x => if containsId acc (HasId.getId x) then acc else acc ++ [x]) l

/-- Index entry computation mirroring ObjectRule::new (lines 77-94): the map
built over the networks collection associates a network identifier with the
positions of the lines referencing it, omitting networks with no dependent
line; a key that is no network identifier is absent from the map. -/
def linesByNetwork (networks : List Network) (lines : List Line) :
    String → Option (List Nat) := fun nid =>
  if containsId networks nid then
    let idxs := List.findIdxs (fun l => l.network_id == nid) lines
    if idxs.isEmpty then none else some idxs
  else none

/-- Index mirroring lines_by_commercial_mode of ObjectRule::new (lines
95-112). -/
def linesByCommercialMode (commercial_modes : List CommercialMode)
    (lines : List Line) : String → Option (List Nat) := fun cid =>
  if containsId commercial_modes cid then
    let idxs := List.findIdxs (fun l => l.commercial_mode_id == cid) lines
    if idxs.isEmpty then none else some idxs
  else none

/-- Index mirroring vjs_by_physical_mode of ObjectRule::new (lines 113-130). -/
def vjsByPhysicalMode (physical_modes : List PhysicalMode)
    (vehicle_journeys : List VehicleJourney) : String → Option (List Nat) :=
  fun pid =>
  if containsId physical_modes pid then
    let idxs := List.findIdxs (fun v => v.physical_mode_id == pid) vehicle_journeys
    if idxs.isEmpty then none else some idxs
  else none

/-- Positional in-place update mirroring index_mut on a collection. -/
def updateAt {α : Type} (l : List α) (i : Nat) (f : α → α) : List α :=
  match l[i]? with
  | some x => l.set i (f x)
  | none => l

/-- Deserialization mirroring serde_json::from_value::<Network> on the rule
properties. Modelled from the spec: the target entity is built from the
target-properties, keyed by network_id, with its display name under name. -/
def deserializeNetwork (props : List (String × String)) : Option Network :=
  (rowGet props "network_id").map
    (fun i => ⟨i, (rowGet props "name").getD ""⟩)

/-- Deserialization mirroring serde_json::from_value::<CommercialMode>. -/
def deserializeCommercialMode (props : List (String × String)) :
    Option CommercialMode :=
  (rowGet props "commercial_mode_id").map
    (fun i => ⟨i, (rowGet props "name").getD ""⟩)

/-- Deserialization mirroring serde_json::from_value::<PhysicalMode>. -/
def deserializePhysicalMode (props : List (String × String)) :
    Option PhysicalMode :=
  (rowGet props "physical_mode_id").map
    (fun i => ⟨i, (rowGet props "name").getD ""⟩)

/-- Closure body of check_and_apply_networks_rules (lines 306-321): when the
absorbed identifier has an index entry, repoint the network_id of every line
at the listed positions and the object_id of every Network-typed perimeter
equal to it, returning true; otherwise change nothing and return false. -/
def repointNetworkDeps (lbn : String → Option (List Nat)) (network_id : String)
    (regroup_id : String) (lp : List Line × List TicketUsePerimeter) :
    (List Line × List TicketUsePerimeter) × Bool :=
  match lbn regroup_id with
  | some idxs =>
    ((idxs.foldl
        (fun ls i => updateAt ls i (fun l => { l with network_id := network_id }))
        lp.1,
      lp.2.map
        (fun t =>
          if t.object_type == ObjectType.Network && t.object_id == regroup_id then
            { t with object_id := network_id }
          else t)),
     true)
  | none => (lp, false)

/-- Closure body of check_and_apply_commercial_modes_rules (lines 258-268). -/
def repointCommercialModeDeps (lbc : String → Option (List Nat))
    (commercial_mode_id : String) (regroup_id : String) (ls : List Line) :
    List Line × Bool :=
  match lbc regroup_id with
  | some idxs =>
    (idxs.foldl
      (fun ls i =>
        updateAt ls i (fun l => { l with commercial_mode_id := commercial_mode_id }))
      ls,
     true)
  | none => (ls, false)

/-- Closure body of check_and_apply_physical_modes_rules (lines 209-220). -/
def repointPhysicalModeDeps (vbp : String → Option (List Nat))
    (physical_mode_id : String) (regroup_id : String)
    (vs : List VehicleJourney) : List VehicleJourney × Bool :=
  match vbp regroup_id with
  | some idxs =>
    (idxs.foldl
      (fun vs i =>
        updateAt vs i (fun v => { v with physical_mode_id := physical_mode_id }))
      vs,
     true)
  | none => (vs, false)

/-- State threaded through one category pass: the collections, the report and
the staged new entities (new_networks and its analogues). -/
structure PassState (α : Type) where
  collections : Collections
  report : Report
  staged : List α
deriving DecidableEq

/-- Sequential fold with early error return, mirroring a Rust for-loop whose
body may propagate an error. -/
def foldSteps {σ α : Type} (f : σ → α → Except String σ) :
    σ → List α → Except String σ
  | s, [] => Except.ok s
  | s, a :: l =>
    match f s a with
    | Except.error e => Except.error e
    | Except.ok s' => foldSteps f s' l

/-- Body of the per-rule loop of check_and_apply_networks_rules (lines
298-332): check the rule, stage the target when absent (deserialization
failure is a hard error), regroup the absorbed identifiers repointing lines
and Network-typed perimeters, report a rule without effect, and
unconditionally retain the networks not named in the absorption list. -/
def networksRuleStep (lbn : String → Option (List Nat))
    (st : PassState Network) (pyr : ObjectProperties) :
    Except String (PassState Network) :=
  match pyr.check "network_id" st.report with
  | Except.error e => Except.error e
  | Except.ok (none, report) =>
    Except.ok
      ⟨{ st.collections with
          networks := retainNotGrouped st.collections.networks pyr.grouped_from },
       report, st.staged⟩
  | Except.ok (some network_id, report) =>
    match
      (if containsId st.collections.networks network_id then some st.staged
       else (deserializeNetwork pyr.properties).map (fun n => st.staged ++ [n])) with
    | none => Except.error "properties can not be deserialized"
    | some staged =>
      let r := pyr.regroup st.collections.networks report
        (repointNetworkDeps lbn network_id)
        (st.collections.lines, st.collections.ticket_use_perimeters)
      let report :=
        if r.2.2 then r.2.1
        else r.2.1 ++ [ReportEntry.ruleNotApplied "network" network_id]
      let collections :=
        { st.collections with
          lines := r.1.1, ticket_use_perimeters := r.1.2 }
      Except.ok
        ⟨{ collections with
            networks := retainNotGrouped collections.networks pyr.grouped_from },
         report, staged⟩

/-- Function mirroring check_and_apply_networks_rules (lines 289-337): run
the per-rule loop, then insert every staged network. -/
def check_and_apply_networks_rules (lbn : String → Option (List Nat))
    (report : Report) (collections : Collections)
    (networks_rules : List ObjectProperties) :
    Except String (Collections × Report) :=
  match foldSteps (networksRuleStep lbn) ⟨collections, report, []⟩ networks_rules with
  | Except.error e => Except.error e
  | Except.ok st =>
    Except.ok
      ({ st.collections with
          networks := extendWithId st.collections.networks st.staged },
       st.report)

/-- Body of the per-rule loop of check_and_apply_commercial_modes_rules
(lines 250-282). -/
def commercialModesRuleStep (lbc : String → Option (List Nat))
    (st : PassState CommercialMode) (pyr : ObjectProperties) :
    Except String (PassState CommercialMode) :=
  match pyr.check "commercial_mode_id" st.report with
  | Except.error e => Except.error e
  | Except.ok (none, report) =>
    Except.ok
      ⟨{ st.collections with
          commercial_modes :=
            retainNotGrouped st.collections.commercial_modes pyr.grouped_from },
       report, st.staged⟩
  | Except.ok (some commercial_mode_id, report) =>
    match
      (if containsId st.collections.commercial_modes commercial_mode_id then
        some st.staged
       else
        (deserializeCommercialMode pyr.properties).map
          (fun n => st.staged ++ [n])) with
    | none => Except.error "properties can not be deserialized"
    | some staged =>
      let r := pyr.regroup st.collections.commercial_modes report
        (repointCommercialModeDeps lbc commercial_mode_id) st.collections.lines
      let report :=
        if r.2.2 then r.2.1
        else r.2.1 ++ [ReportEntry.ruleNotApplied "commercial mode" commercial_mode_id]
      let collections := { st.collections with lines := r.1 }
      Except.ok
        ⟨{ collections with
            commercial_modes :=
              retainNotGrouped collections.commercial_modes pyr.grouped_from },
         report, staged⟩

/-- Function mirroring check_and_apply_commercial_modes_rules (lines
241-287). -/
def check_and_apply_commercial_modes_rules (lbc : String → Option (List Nat))
    (report : Report) (collections : Collections)
    (commercial_modes_rules : List ObjectProperties) :
    Except String (Collections × Report) :=
  match
    foldSteps (commercialModesRuleStep lbc) ⟨collections, report, []⟩
      commercial_modes_rules with
  | Except.error e => Except.error e
  | Except.ok st =>
    Except.ok
      ({ st.collections with
          commercial_modes := extendWithId st.collections.commercial_modes st.staged },
       st.report)

/-- Body of the per-rule loop of check_and_apply_physical_modes_rules (lines
201-234). -/
def physicalModesRuleStep (vbp : String → Option (List Nat))
    (st : PassState PhysicalMode) (pyr : ObjectProperties) :
    Except String (PassState PhysicalMode) :=
  match pyr.check "physical_mode_id" st.report with
  | Except.error e => Except.error e
  | Except.ok (none, report) =>
    Except.ok
      ⟨{ st.collections with
          physical_modes :=
            retainNotGrouped st.collections.physical_modes pyr.grouped_from },
       report, st.staged⟩
  | Except.ok (some physical_mode_id, report) =>
    match
      (if containsId st.collections.physical_modes physical_mode_id then
        some st.staged
       else
        (deserializePhysicalMode pyr.properties).map (fun n => st.staged ++ [n])) with
    | none => Except.error "properties can not be deserialized"
    | some staged =>
      let r := pyr.regroup st.collections.physical_modes report
        (repointPhysicalModeDeps vbp physical_mode_id)
        st.collections.vehicle_journeys
      let report :=
        if r.2.2 then r.2.1
        else r.2.1 ++ [ReportEntry.ruleNotApplied "physical mode" physical_mode_id]
      let collections := { st.collections with vehicle_journeys := r.1 }
      Except.ok
        ⟨{ collections with
            physical_modes :=
              retainNotGrouped collections.physical_modes pyr.grouped_from },
         report, staged⟩

/-- Function mirroring check_and_apply_physical_modes_rules (lines 192-239). -/
def check_and_apply_physical_modes_rules (vbp : String → Option (List Nat))
    (report : Report) (collections : Collections)
    (physical_modes_rules : List ObjectProperties) :
    Except String (Collections × Report) :=
  match
    foldSteps (physicalModesRuleStep vbp) ⟨collections, report, []⟩
      physical_modes_rules with
  | Except.error e => Except.error e
  | Except.ok st =>
    Except.ok
      ({ st.collections with
          physical_modes := extendWithId st.collections.physical_modes st.staged },
       st.report)

/-- Structure mirroring ObjectRuleConfiguration: the three optional rule
lists. -/
structure ObjectRuleConfiguration where
  networks_rules : Option (List ObjectProperties)
  commercial_modes_rules : Option (List ObjectProperties)
  physical_modes_rules : Option (List ObjectProperties)
deriving DecidableEq

/-- Structure mirroring ObjectRule. -/
structure ObjectRule where
  configuration : ObjectRuleConfiguration
  lines_by_network : Option (String → Option (List Nat))
  lines_by_commercial_mode : Option (String → Option (List Nat))
  vjs_by_physical_mode : Option (String → Option (List Nat))

/-- Function mirroring ObjectRule::new (lines 75-138): each reverse-reference
index is built from the model exactly when the matching rule list is present. -/
def ObjectRule.new (configuration : ObjectRuleConfiguration)
    (model : Collections) : ObjectRule :=
  { configuration := configuration
    lines_by_network :=
      configuration.networks_rules.map
        (fun _ => linesByNetwork model.networks model.lines)
    lines_by_commercial_mode :=
      configuration.commercial_modes_rules.map
        (fun _ => linesByCommercialMode model.commercial_modes model.lines)
    vjs_by_physical_mode :=
      configuration.physical_modes_rules.map
        (fun _ => vjsByPhysicalMode model.physical_modes model.vehicle_journeys) }

/-- Stage of ObjectRule::apply_rules guarded on the networks rules. -/
def runNetworksStage (rule : ObjectRule) (collections : Collections)
    (report : Report) : Except String (Collections × Report) :=
  match rule.configuration.networks_rules, rule.lines_by_network with
  | some rs, some lbn => check_and_apply_networks_rules lbn report collections rs
  | _, _ => Except.ok (collections, report)

/-- Stage of ObjectRule::apply_rules guarded on the commercial modes rules. -/
def runCommercialModesStage (rule : ObjectRule) (collections : Collections)
    (report : Report) : Except String (Collections × Report) :=
  match rule.configuration.commercial_modes_rules, rule.lines_by_commercial_mode with
  | some rs, some lbc =>
    check_and_apply_commercial_modes_rules lbc report collections rs
  | _, _ => Except.ok (collections, report)

/-- Stage of ObjectRule::apply_rules guarded on the physical modes rules. -/
def runPhysicalModesStage (rule : ObjectRule) (collections : Collections)
    (report : Report) : Except String (Collections × Report) :=
  match rule.configuration.physical_modes_rules, rule.vjs_by_physical_mode with
  | some rs, some vbp =>
    check_and_apply_physical_modes_rules vbp report collections rs
  | _, _ => Except.ok (collections, report)

/-- Function mirroring ObjectRule::apply_rules (lines 339-374): the three
category passes run in the fixed order networks, commercial modes, physical
modes, each propagating hard errors. -/
def ObjectRule.apply_rules (rule : ObjectRule) (collections : Collections)
    (report : Report) : Except String (Collections × Report) :=
  match runNetworksStage rule collections report with
  | Except.error e => Except.error e
  | Except.ok (collections, report) =>
    match runCommercialModesStage rule collections report with
    | Except.error e => Except.error e
    | Except.ok (collections, report) =>
      runPhysicalModesStage rule collections report

/-- Extraction of the value of a successful run, with a fallback for the
error case, used to state concrete-evaluation theorems. -/
def okOr {β : Type} (e : Except String β) (d : β) : β :=
  match e with
  | Except.ok x => x
  | Except.error _ => d

/-- Boolean test whether e is a successful run. -/
def isOk {β : Type} (e : Except String β) : Bool :=
  match e with
  | Except.ok _ => true
  | Except.error _ => false

/-! ## Characterization functions used in theorem statements -/

/-- Predicate characterizing which restriction records the loop of
fill_ticket_use_restrictions keeps: an OriginDestination record needs both
stop areas to exist, a Zone record is kept unconditionally. -/
def restrictionKept (collections : Collections) (r : TicketUseRestriction) :
    Bool :=
  match r.restriction_type with
  | RestrictionType.OriginDestination =>
    (getById collections.stop_areas r.use_origin).isSome &&
      (getById collections.stop_areas r.use_destination).isSome
  | RestrictionType.Zone => true

/-- Report entries one restriction record contributes: the origin entry when
the origin is missing (the destination then being neither checked nor
reported), else the destination entry when the destination is missing, else
nothing; a Zone record contributes nothing. -/
def restrictionEntries (collections : Collections) (r : TicketUseRestriction) :
    Report :=
  match r.restriction_type with
  | RestrictionType.OriginDestination =>
    if (getById collections.stop_areas r.use_origin).isNone then
      [ReportEntry.originNotFound r.use_origin]
    else if (getById collections.stop_areas r.use_destination).isNone then
      [ReportEntry.destinationNotFound r.use_destination]
    else []
  | RestrictionType.Zone => []

/-- Definition following the words of the spec (pruning law), for comparison
with sanitize_tickets: a ticket price has transitive support when some
TicketUse record of the collections carries its ticket_id and is referenced
as ticket_use_id by a surviving perimeter or restriction. -/
def ticketPriceTransitiveSupport (collections : Collections)
    (p : TicketPrice) : Bool :=
  collections.ticket_uses.any (fun tu =>
    tu.ticket_id == p.ticket_id &&
      ((collections.ticket_use_perimeters.map (fun t => t.ticket_use_id) ++
          collections.ticket_use_restrictions.map (fun t => t.ticket_use_id)).contains
        tu.id))

/-- Report entries one rule contributes during a pass that finds every
absorbed identifier absent: the empty-absorption-list entry for a rule with
no absorption list, otherwise one identifier-not-found entry per absorbed
identifier followed by the rule-not-applied entry. -/
def ruleNoopEntries (id_key : String) (kind : String)
    (pyr : ObjectProperties) : Report :=
  match rowGet pyr.properties id_key with
  | none => []
  | some t =>
    if pyr.grouped_from.isEmpty then [ReportEntry.emptyGroupedFrom id_key t]
    else
      pyr.grouped_from.map ReportEntry.identifierNotFound ++
        [ReportEntry.ruleNotApplied kind t]

/-- Report entries a whole rule list contributes during an effect-free pass. -/
def rulesNoopEntries (id_key : String) (kind : String)
    (rules : List ObjectProperties) : Report :=
  rules.flatMap (ruleNoopEntries id_key kind)

/-- Report entries an optional rule list contributes during an effect-free
run (a missing category contributes nothing). -/
def stageNoopEntries (id_key : String) (kind : String)
    (rulesOpt : Option (List ObjectProperties)) : Report :=
  match rulesOpt with
  | none => []
  | some rules => rulesNoopEntries id_key kind rules

/-! ## Concrete inputs used by counterexamples and witnesses -/

/-- Collections for the C1 evaluation: the Network collection does not
contain N5. -/
def c1Collections : Collections :=
  { emptyCollections with networks := [⟨"N1", "one"⟩] }

/-- Perimeter record referencing the missing network N5. -/
def c1RowMissing : TicketUsePerimeter :=
  ⟨"TU1", ObjectType.Network, "N5"⟩

/-- Perimeter record referencing the existing network N1. -/
def c1RowPresent : TicketUsePerimeter :=
  ⟨"TU2", ObjectType.Network, "N1"⟩

/-- Archive member shared by the two C2 archives. -/
def c2Base : Archive := fun n =>
  if n = "tickets.txt" then some [[("ticket_id", "T1")]]
  else if n = "ticket_uses.txt" then
    some [[("ticket_use_id", "U1"), ("ticket_id", "T1")]]
  else if n = "ticket_prices.txt" then some [[("ticket_id", "T1")]]
  else if n = "ticket_use_perimeters.txt" then
    some [[("ticket_use_id", "U1"), ("object_type", "Network"),
           ("object_id", "N9")]]
  else none

/-- Archive carrying a ticket_use_restrictions.txt member. -/
def c2ArchiveA : Archive := fun n =>
  if n = "ticket_use_restrictions.txt" then
    some [[("ticket_use_id", "U1"), ("restriction_type", "Zone"),
           ("use_origin", "SA1"), ("use_destination", "SA2")]]
  else c2Base n

/-- Archive identical to c2ArchiveA except that ticket_use_restrictions.txt
is absent. -/
def c2ArchiveB : Archive := c2Base

/-- Collections for the C3 counterexample: a perimeter whose ticket_use_id
is T1, a price whose ticket_id is T1, and no TicketUse record at all. -/
def c3Collections : Collections :=
  { emptyCollections with
    ticket_prices := [⟨"T1"⟩],
    ticket_use_perimeters := [⟨"T1", ObjectType.Network, "X"⟩] }

/-- Collections for Scenario A: networks N2 and N3 with dependent lines L1
and L2; N1 absent. -/
def c4Collections : Collections :=
  { emptyCollections with
    networks := [⟨"N2", "two"⟩, ⟨"N3", "three"⟩],
    lines := [⟨"L1", "N2", "CM1"⟩, ⟨"L2", "N3", "CM1"⟩] }

/-- Rule configuration for Scenario A. -/
def c4Config : ObjectRuleConfiguration :=
  ⟨some [⟨[("network_id", "N1"), ("name", "Merged")], ["N2", "N3"]⟩],
   none, none⟩

/-- Consolidated collections of Scenario A. -/
def c4Result : Collections × Report :=
  okOr ((ObjectRule.new c4Config c4Collections).apply_rules c4Collections [])
    (emptyCollections, [])

/-- Collections for the C5 counterexample: networks N2 and N0 both present. -/
def c5Collections : Collections :=
  { emptyCollections with networks := [⟨"N2", "two"⟩, ⟨"N0", "zero"⟩] }

/-- Rules for the C5 counterexample: the first rule absorbs N2, the second
rule has N2 as its target. -/
def c5Rules : List ObjectProperties :=
  [⟨[("network_id", "N1")], ["N2"]⟩, ⟨[("network_id", "N2")], ["N0"]⟩]

/-- Run of the networks pass on the C5 counterexample input. -/
def c5Result : Collections × Report :=
  okOr
    (check_and_apply_networks_rules
      (linesByNetwork c5Collections.networks c5Collections.lines) []
      c5Collections c5Rules)
    (emptyCollections, [])

/-- Collections for the C5 witness: only N2 present. -/
def c5wCollections : Collections :=
  { emptyCollections with networks := [⟨"N2", "two"⟩] }

/-- Rules for the C5 witness: one rule targeting N1 and absorbing N2. -/
def c5wRules : List ObjectProperties :=
  [⟨[("network_id", "N1")], ["N2"]⟩]

/-- Run of the networks pass on the C5 witness input. -/
def c5wResult : Collections × Report :=
  okOr
    (check_and_apply_networks_rules
      (linesByNetwork c5wCollections.networks c5wCollections.lines) []
      c5wCollections c5wRules)
    (emptyCollections, [])

/-- Collections for the C6 counterexample: the single network N1. -/
def c6Collections : Collections :=
  { emptyCollections with networks := [⟨"N1", "one"⟩] }

/-- Configuration for the C6 counterexample: one networks rule whose target
N1 is also its own absorbed identifier. -/
def c6Config : ObjectRuleConfiguration :=
  ⟨some [⟨[("network_id", "N1")], ["N1"]⟩], none, none⟩

/-- First run of the C6 counterexample. -/
def c6FirstRun : Collections × Report :=
  okOr ((ObjectRule.new c6Config c6Collections).apply_rules c6Collections [])
    (emptyCollections, [])

/-- Second run of the C6 counterexample, against the consolidated store. -/
def c6SecondRun : Collections × Report :=
  okOr
    ((ObjectRule.new c6Config c6FirstRun.1).apply_rules c6FirstRun.1 [])
    (emptyCollections, [])

/-- Collections for the C6 witness: network NA present, target NT absent. -/
def c6wCollections : Collections :=
  { emptyCollections with networks := [⟨"NA", "a"⟩] }

/-- Configuration for the C6 witness: one networks rule targeting NT and
absorbing NA. -/
def c6wConfig : ObjectRuleConfiguration :=
  ⟨some [⟨[("network_id", "NT")], ["NA"]⟩], none, none⟩

/-- First run of the C6 witness. -/
def c6wFirstRun : Collections × Report :=
  okOr ((ObjectRule.new c6wConfig c6wCollections).apply_rules c6wCollections [])
    (emptyCollections, [])

/-- Archive for the C7 evaluation: the four required members are present,
ticket_use_restrictions.txt is absent, and the perimeters member holds one
record that deserializes as a Zone restriction (and not as a perimeter). -/
def c7Archive : Archive := fun n =>
  if n = "tickets.txt" then some []
  else if n = "ticket_uses.txt" then some []
  else if n = "ticket_prices.txt" then some []
  else if n = "ticket_use_perimeters.txt" then
    some [[("ticket_use_id", "U1"), ("restriction_type", "Zone"),
           ("use_origin", "SA1"), ("use_destination", "SA2")]]
  else none

/-- Result of the C7 evaluation. -/
def c7Result : Collections × Report :=
  okOr (read_farev2 emptyCollections c7Archive []) (emptyCollections, [])

/-- Collections for the C9 witness (Scenario B): network N0 with dependent
line L1; neither N1 nor N9 exists. -/
def c9Collections : Collections :=
  { emptyCollections with
    networks := [⟨"N0", "zero"⟩],
    lines := [⟨"L1", "N0", "CM1"⟩] }

/-- Rule for the C9 witness: target N1, absorbing the never-existing N9. -/
def c9Rule : ObjectProperties :=
  ⟨[("network_id", "N1"), ("name", "Merged")], ["N9"]⟩

/-- Collections for the C10 witness: one existing network. -/
def c10Collections : Collections :=
  { emptyCollections with networks := [⟨"N1", "one"⟩] }

/-- Line-typed perimeter record for the C10 witness. -/
def c10LineRow : TicketUsePerimeter :=
  ⟨"TU9", ObjectType.Line, "L7"⟩

/-- Network-typed perimeter records surrounding the Line-typed one in the
C10 witness. -/
def c10OtherRows : List TicketUsePerimeter :=
  [⟨"TU1", ObjectType.Network, "N7"⟩, ⟨"TU2", ObjectType.Network, "N8"⟩]

/-! ## Helper lemmas -/

theorem containsId_iff {α : Type} [HasId α] (l : List α) (s : String) :
    containsId l s = true ↔ ∃ x ∈ l, HasId.getId x = s := by
  simp [containsId, List.any_eq_true]

theorem containsId_append {α : Type} [HasId α] (a b : List α) (s : String) :
    containsId (a ++ b) s = (containsId a s || containsId b s) := by
  simp [containsId, List.any_append]

theorem containsId_filter_le {α : Type} [HasId α] (l : List α) (p : α → Bool)
    (s : String) (h : containsId (l.filter p) s = true) :
    containsId l s = true := by
  rw [containsId_iff] at h ⊢
  obtain ⟨x, hx, hid⟩ := h
  exact ⟨x, (List.mem_filter.mp hx).1, hid⟩

theorem stringContains_iff (l : List String) (a : String) :
    l.contains a = true ↔ a ∈ l :=
  List.elem_iff

theorem stringContains_eq_false_iff (l : List String) (a : String) :
    l.contains a = false ↔ a ∉ l := by
  rw [Bool.eq_false_iff]
  rw [Ne, stringContains_iff]

theorem retainNotGrouped_not_contains {α : Type} [HasId α] (l : List α)
    (gf : List String) (g : String) (hg : g ∈ gf) :
    containsId (retainNotGrouped l gf) g = false := by
  rw [Bool.eq_false_iff]
  intro h
  rw [containsId_iff] at h
  obtain ⟨x, hx, hid⟩ := h
  have hcond := (List.mem_filter.mp hx).2
  rw [hid] at hcond
  rw [Bool.not_eq_true'] at hcond
  exact (stringContains_eq_false_iff gf g).mp hcond hg

theorem retainNotGrouped_contains_of {α : Type} [HasId α] (l : List α)
    (gf : List String) (t : String) (hl : containsId l t = true)
    (ht : t ∉ gf) : containsId (retainNotGrouped l gf) t = true := by
  rw [containsId_iff] at hl ⊢
  obtain ⟨x, hx, hid⟩ := hl
  refine ⟨x, List.mem_filter.mpr ⟨hx, ?_⟩, hid⟩
  rw [hid]
  rw [Bool.not_eq_true']
  exact (stringContains_eq_false_iff gf t).mpr ht

theorem retainNotGrouped_eq_self {α : Type} [HasId α] (l : List α)
    (gf : List String) (h : ∀ g ∈ gf, containsId l g = false) :
    retainNotGrouped l gf = l := by
  refine List.filter_eq_self.mpr ?_
  intro x hx
  rw [Bool.not_eq_true']
  rw [stringContains_eq_false_iff]
  intro hmem
  have h1 := h (HasId.getId x) hmem
  have h2 : containsId l (HasId.getId x) = true :=
    (containsId_iff l _).mpr ⟨x, hx, rfl⟩
  rw [h1] at h2
  exact Bool.false_ne_true h2

theorem extendWithId_cons {α : Type} [HasId α] (l : List α) (x : α)
    (new : List α) :
    extendWithId l (x :: new) =
      extendWithId
        (if containsId l (HasId.getId x) then l else l ++ [x]) new := by
  simp only [extendWithId, List.foldl_cons]

theorem extendWithId_contains_mono {α : Type} [HasId α] (new : List α) :
    ∀ (l : List α) (s : String), containsId l s = true →
      containsId (extendWithId l new) s = true := by
  induction new with
  | nil => intro l s h; exact h
  | cons x rest ih =>
    intro l s h
    rw [extendWithId_cons]
    by_cases hc : containsId l (HasId.getId x) = true
    · rw [if_pos hc]; exact ih l s h
    · rw [if_neg hc]
      refine ih _ s ?_
      rw [containsId_append, h]
      rfl

theorem extendWithId_contains_of_mem {α : Type} [HasId α] (new : List α) :
    ∀ (l : List α) (n : α), n ∈ new →
      containsId (extendWithId l new) (HasId.getId n) = true := by
  induction new with
  | nil => intro l n h; cases h
  | cons x rest ih =>
    intro l n h
    rw [extendWithId_cons]
    rcases List.mem_cons.mp h with h1 | h2
    · subst h1
      by_cases hc : containsId l (HasId.getId n) = true
      · rw [if_pos hc]; exact extendWithId_contains_mono rest l _ hc
      · rw [if_neg hc]
        refine extendWithId_contains_mono rest _ _ ?_
        rw [containsId_append]
        have : containsId [n] (HasId.getId n) = true := by
          simp [containsId]
        rw [this]
        simp
    · exact ih _ n h2

theorem extendWithId_contains_src {α : Type} [HasId α] (new : List α) :
    ∀ (l : List α) (s : String),
      containsId (extendWithId l new) s = true →
      containsId l s = true ∨ ∃ n ∈ new, HasId.getId n = s := by
  induction new with
  | nil => intro l s h; exact Or.inl h
  | cons x rest ih =>
    intro l s h
    rw [extendWithId_cons] at h
    by_cases hc : containsId l (HasId.getId x) = true
    · rw [if_pos hc] at h
      rcases ih l s h with h1 | ⟨n, hn, hid⟩
      · exact Or.inl h1
      · exact Or.inr ⟨n, List.mem_cons_of_mem x hn, hid⟩
    · rw [if_neg hc] at h
      rcases ih _ s h with h1 | ⟨n, hn, hid⟩
      · rw [containsId_append] at h1
        rcases Bool.or_eq_true_iff.mp h1 with h2 | h2
        · exact Or.inl h2
        · rw [containsId_iff] at h2
          obtain ⟨y, hy, hyid⟩ := h2
          rcases List.mem_singleton.mp hy with rfl
          exact Or.inr ⟨y, List.mem_cons_self y rest, hyid⟩
      · exact Or.inr ⟨n, List.mem_cons_of_mem x hn, hid⟩

theorem foldSteps_nil {σ α : Type} (f : σ → α → Except String σ) (s : σ) :
    foldSteps f s [] = Except.ok s := rfl

theorem foldSteps_cons_ok {σ α : Type} (f : σ → α → Except String σ)
    (s s' : σ) (a : α) (l : List α) (h : f s a = Except.ok s') :
    foldSteps f s (a :: l) = foldSteps f s' l := by
  simp only [foldSteps, h]

theorem foldSteps_append_ok {σ α : Type} (f : σ → α → Except String σ)
    (l1 : List α) : ∀ (l2 : List α) (s s'' : σ),
      foldSteps f s (l1 ++ l2) = Except.ok s'' →
      ∃ sm, foldSteps f s l1 = Except.ok sm ∧
        foldSteps f sm l2 = Except.ok s'' := by
  induction l1 with
  | nil => intro l2 s s'' h; exact ⟨s, rfl, h⟩
  | cons a l1 ih =>
    intro l2 s s'' h
    simp only [List.cons_append, foldSteps] at h
    rcases ha : f s a with e | s1
    · rw [ha] at h; cases h
    · rw [ha] at h
      obtain ⟨sm, h1, h2⟩ := ih l2 s1 s'' h
      exact ⟨sm, by simp only [foldSteps, ha]; exact h1, h2⟩

theorem foldSteps_cons_elim {σ α : Type} (f : σ → α → Except String σ)
    (s s'' : σ) (a : α) (l : List α)
    (h : foldSteps f s (a :: l) = Except.ok s'') :
    ∃ s1, f s a = Except.ok s1 ∧ foldSteps f s1 l = Except.ok s'' := by
  simp only [foldSteps] at h
  rcases ha : f s a with e | s1
  · rw [ha] at h; cases h
  · rw [ha] at h; exact ⟨s1, rfl, h⟩

theorem foldSteps_invariant {σ α : Type} (f : σ → α → Except String σ)
    (l : List α) (P : σ → Prop)
    (hstep : ∀ s a s', a ∈ l → P s → f s a = Except.ok s' → P s') :
    ∀ (s s' : σ), foldSteps f s l = Except.ok s' → P s → P s' := by
  induction l with
  | nil =>
    intro s s' h hp
    cases h
    exact hp
  | cons a l ih =>
    intro s s' h hp
    obtain ⟨s1, h1, h2⟩ := foldSteps_cons_elim f s s' a l h
    refine ih (fun t b t' hb => hstep t b t' (List.mem_cons_of_mem a hb))
      s1 s' h2 ?_
    exact hstep s a s1 (List.mem_cons_self a l) hp h1

theorem foldSteps_mem_ok {σ α : Type} (f : σ → α → Except String σ)
    (l : List α) (a : α) (ha : a ∈ l) (s s' : σ)
    (h : foldSteps f s l = Except.ok s') :
    ∃ t t', f t a = Except.ok t' := by
  obtain ⟨l1, l2, rfl⟩ := List.append_of_mem ha
  obtain ⟨sm, _, h2⟩ := foldSteps_append_ok f l1 (a :: l2) s s' h
  obtain ⟨s1, h3, _⟩ := foldSteps_cons_elim f sm s' a l2 h2
  exact ⟨sm, s1, h3⟩

theorem regroupLoop_report_mono {α σ : Type} [HasId α] (collection : List α)
    (f : String → σ → σ × Bool) (gs : List String) :
    ∀ (st : σ) (report : Report) (changed : Bool),
      ∃ e, (regroupLoop collection f gs st report changed).2.1 = report ++ e := by
  induction gs with
  | nil => intro st report changed; exact ⟨[], by simp [regroupLoop]⟩
  | cons g rest ih =>
    intro st report changed
    by_cases hc : containsId collection g = true
    · simp only [regroupLoop, if_pos hc]
      exact ih _ report _
    · simp only [regroupLoop, if_neg hc]
      obtain ⟨e, he⟩ := ih st (report ++ [ReportEntry.identifierNotFound g]) changed
      exact ⟨[ReportEntry.identifierNotFound g] ++ e, by rw [he, List.append_assoc]⟩

theorem regroupLoop_noop {α σ : Type} [HasId α] (collection : List α)
    (f : String → σ → σ × Bool) (gs : List String)
    (h : ∀ g ∈ gs, containsId collection g = false ∨ ∀ t, f g t = (t, false)) :
    ∀ (st : σ) (report : Report) (changed : Bool),
      regroupLoop collection f gs st report changed =
        (st,
         report ++
           gs.filterMap (fun g =>
             if containsId collection g then none
             else some (ReportEntry.identifierNotFound g)),
         changed) := by
  induction gs with
  | nil => intro st report changed; simp [regroupLoop]
  | cons g rest ih =>
    intro st report changed
    rcases h g (List.mem_cons_self g rest) with hc | hf
    · simp only [regroupLoop, hc, Bool.false_eq_true, if_false, List.filterMap_cons, if_neg]
      rw [ih (fun x hx => h x (List.mem_cons_of_mem g hx))]
      rw [List.append_assoc]
      simp [hc]
    · by_cases hc : containsId collection g = true
      · simp only [regroupLoop, if_pos hc, hf st, Bool.false_or]
        rw [ih (fun x hx => h x (List.mem_cons_of_mem g hx))]
        simp [List.filterMap_cons, hc]
      · rw [Bool.not_eq_true] at hc
        simp only [regroupLoop, hc, Bool.false_eq_true, if_false, List.filterMap_cons]
        rw [ih (fun x hx => h x (List.mem_cons_of_mem g hx))]
        rw [List.append_assoc]
        simp [hc]

theorem filterMap_absent_eq_map {α : Type} [HasId α] (collection : List α)
    (gs : List String) (h : ∀ g ∈ gs, containsId collection g = false) :
    gs.filterMap (fun g =>
        if containsId collection g then none
        else some (ReportEntry.identifierNotFound g)) =
      gs.map ReportEntry.identifierNotFound := by
  induction gs with
  | nil => rfl
  | cons g rest ih =>
    simp only [List.filterMap_cons, List.map_cons]
    rw [h g (List.mem_cons_self g rest)]
    simp only [Bool.false_eq_true, if_false]
    rw [ih (fun x hx => h x (List.mem_cons_of_mem g hx))]

theorem regroupLoop_all_absent {α σ : Type} [HasId α] (collection : List α)
    (f : String → σ → σ × Bool) (gs : List String)
    (h : ∀ g ∈ gs, containsId collection g = false) :
    ∀ (st : σ) (report : Report) (changed : Bool),
      regroupLoop collection f gs st report changed =
        (st, report ++ gs.map ReportEntry.identifierNotFound, changed) := by
  intro st report changed
  rw [regroupLoop_noop collection f gs (fun g hg => Or.inl (h g hg))]
  rw [filterMap_absent_eq_map collection gs h]

theorem check_ok_key (op : ObjectProperties) (id_key : String)
    (report : Report) (idOpt : Option String) (report' : Report)
    (h : op.check id_key report = Except.ok (idOpt, report')) :
    ∃ t, rowGet op.properties id_key = some t := by
  unfold ObjectProperties.check at h
  rcases hrg : rowGet op.properties id_key with _ | t
  · rw [hrg] at h; cases h
  · exact ⟨t, rfl⟩

theorem check_ok_some (op : ObjectProperties) (id_key : String)
    (report : Report) (id : String) (report' : Report)
    (h : op.check id_key report = Except.ok (some id, report')) :
    rowGet op.properties id_key = some id ∧ report' = report ∧
      op.grouped_from ≠ [] := by
  unfold ObjectProperties.check at h
  rcases hrg : rowGet op.properties id_key with _ | t
  · rw [hrg] at h; cases h
  · rw [hrg] at h
    simp only [] at h
    by_cases hgf : op.grouped_from.isEmpty = true
    · rw [if_pos hgf] at h
      have := (Except.ok.inj h)
      cases this
    · rw [if_neg hgf] at h
      have h2 := (Except.ok.inj h)
      rw [Prod.mk.injEq] at h2
      obtain ⟨h3, h4⟩ := h2
      cases h3
      exact ⟨rfl, h4.symm, by
        intro hc
        rw [hc] at hgf
        exact hgf rfl⟩

theorem check_ok_none (op : ObjectProperties) (id_key : String)
    (report : Report) (report' : Report)
    (h : op.check id_key report = Except.ok (none, report')) :
    op.grouped_from = [] ∧
      ∃ t, rowGet op.properties id_key = some t ∧
        report' = report ++ [ReportEntry.emptyGroupedFrom id_key t] := by
  unfold ObjectProperties.check at h
  rcases hrg : rowGet op.properties id_key with _ | t
  · rw [hrg] at h; cases h
  · rw [hrg] at h
    simp only [] at h
    by_cases hgf : op.grouped_from.isEmpty = true
    · rw [if_pos hgf] at h
      have h2 := (Except.ok.inj h)
      rw [Prod.mk.injEq] at h2
      exact ⟨List.isEmpty_iff.mp hgf, t, rfl, h2.2.symm⟩
    · rw [if_neg hgf] at h
      have h2 := (Except.ok.inj h)
      rw [Prod.mk.injEq] at h2
      cases h2.1

theorem check_ok_report (op : ObjectProperties) (id_key : String)
    (report : Report) (idOpt : Option String) (report' : Report)
    (h : op.check id_key report = Except.ok (idOpt, report')) :
    ∃ e, report' = report ++ e := by
  rcases idOpt with _ | id
  · obtain ⟨_, t, _, h3⟩ := check_ok_none op id_key report report' h
    exact ⟨[ReportEntry.emptyGroupedFrom id_key t], h3⟩
  · obtain ⟨_, h2, _⟩ := check_ok_some op id_key report id report' h
    exact ⟨[], by rw [h2, List.append_nil]⟩

theorem deserializeNetwork_id (props : List (String × String)) (n : Network)
    (h : deserializeNetwork props = some n) :
    rowGet props "network_id" = some n.id := by
  unfold deserializeNetwork at h
  rcases hrg : rowGet props "network_id" with _ | i
  · rw [hrg] at h; cases h
  · rw [hrg] at h
    simp only [Option.map_some'] at h
    rw [← Option.some.inj h]

theorem deserializeCommercialMode_id (props : List (String × String))
    (n : CommercialMode) (h : deserializeCommercialMode props = some n) :
    rowGet props "commercial_mode_id" = some n.id := by
  unfold deserializeCommercialMode at h
  rcases hrg : rowGet props "commercial_mode_id" with _ | i
  · rw [hrg] at h; cases h
  · rw [hrg] at h
    simp only [Option.map_some'] at h
    rw [← Option.some.inj h]

theorem deserializePhysicalMode_id (props : List (String × String))
    (n : PhysicalMode) (h : deserializePhysicalMode props = some n) :
    rowGet props "physical_mode_id" = some n.id := by
  unfold deserializePhysicalMode at h
  rcases hrg : rowGet props "physical_mode_id" with _ | i
  · rw [hrg] at h; cases h
  · rw [hrg] at h
    simp only [Option.map_some'] at h
    rw [← Option.some.inj h]

theorem deserializeNetwork_of_key (props : List (String × String))
    (t : String) (h : rowGet props "network_id" = some t) :
    deserializeNetwork props = some ⟨t, (rowGet props "name").getD ""⟩ := by
  unfold deserializeNetwork
  rw [h]
  rfl

theorem deserializeCommercialMode_of_key (props : List (String × String))
    (t : String) (h : rowGet props "commercial_mode_id" = some t) :
    deserializeCommercialMode props = some ⟨t, (rowGet props "name").getD ""⟩ := by
  unfold deserializeCommercialMode
  rw [h]
  rfl

theorem deserializePhysicalMode_of_key (props : List (String × String))
    (t : String) (h : rowGet props "physical_mode_id" = some t) :
    deserializePhysicalMode props = some ⟨t, (rowGet props "name").getD ""⟩ := by
  unfold deserializePhysicalMode
  rw [h]
  rfl

theorem networksRuleStep_anatomy (lbn : String → Option (List Nat))
    (st : PassState Network) (pyr : ObjectProperties)
    (st' : PassState Network)
    (h : networksRuleStep lbn st pyr = Except.ok st') :
    st'.collections.networks =
        retainNotGrouped st.collections.networks pyr.grouped_from ∧
      st'.collections.commercial_modes = st.collections.commercial_modes ∧
      st'.collections.physical_modes = st.collections.physical_modes ∧
      st'.collections.vehicle_journeys = st.collections.vehicle_journeys ∧
      st'.collections.stop_areas = st.collections.stop_areas ∧
      st'.collections.tickets = st.collections.tickets ∧
      st'.collections.ticket_uses = st.collections.ticket_uses ∧
      st'.collections.ticket_prices = st.collections.ticket_prices ∧
      st'.collections.ticket_use_restrictions =
        st.collections.ticket_use_restrictions ∧
      (st'.staged = st.staged ∨
        ∃ n, st'.staged = st.staged ++ [n] ∧
          rowGet pyr.properties "network_id" = some n.id) ∧
      (∃ e, st'.report = st.report ++ e) ∧
      (∃ t, rowGet pyr.properties "network_id" = some t) := by
  unfold networksRuleStep at h
  rcases hck : pyr.check "network_id" st.report with e | ⟨idOpt, report⟩
  · rw [hck] at h; cases h
  · rw [hck] at h
    rcases idOpt with _ | network_id
    · simp only [] at h
      obtain rfl := (Except.ok.inj h).symm
      obtain ⟨hgf, t, hkey, hrep⟩ :=
        check_ok_none pyr "network_id" st.report report hck
      exact ⟨rfl, rfl, rfl, rfl, rfl, rfl, rfl, rfl, rfl, Or.inl rfl,
        ⟨[ReportEntry.emptyGroupedFrom "network_id" t], hrep⟩, ⟨t, hkey⟩⟩
    · simp only [] at h
      rcases hst :
          (if containsId st.collections.networks network_id then some st.staged
           else (deserializeNetwork pyr.properties).map
             (fun n => st.staged ++ [n])) with _ | staged
      · rw [hst] at h; cases h
      · rw [hst] at h
        simp only [] at h
        obtain rfl := (Except.ok.inj h).symm
        obtain ⟨hkey', hrep', hne⟩ :=
          check_ok_some pyr "network_id" st.report network_id report hck
        refine ⟨rfl, rfl, rfl, rfl, rfl, rfl, rfl, rfl, rfl, ?_, ?_,
          ⟨network_id, hkey'⟩⟩
        · by_cases hc : containsId st.collections.networks network_id = true
          · rw [if_pos hc] at hst
            exact Or.inl (Option.some.inj hst).symm
          · rw [if_neg hc] at hst
            obtain ⟨n, hn1, hn2⟩ := Option.map_eq_some'.mp hst
            refine Or.inr ⟨n, hn2.symm, ?_⟩
            exact deserializeNetwork_id pyr.properties n hn1
        · obtain ⟨e0, he0⟩ :=
            regroupLoop_report_mono st.collections.networks
              (repointNetworkDeps lbn network_id) pyr.grouped_from
              (st.collections.lines, st.collections.ticket_use_perimeters)
              report false
          simp only [ObjectProperties.regroup]
          by_cases hch :
              (regroupLoop st.collections.networks
                (repointNetworkDeps lbn network_id) pyr.grouped_from
                (st.collections.lines, st.collections.ticket_use_perimeters)
                report false).2.2 = true
          · rw [if_pos hch, he0, hrep']
            exact ⟨e0, rfl⟩
          · rw [if_neg hch, he0, hrep']
            exact ⟨e0 ++ [ReportEntry.ruleNotApplied "network" network_id],
              by rw [List.append_assoc]⟩

theorem commercialModesRuleStep_anatomy (lbc : String → Option (List Nat))
    (st : PassState CommercialMode) (pyr : ObjectProperties)
    (st' : PassState CommercialMode)
    (h : commercialModesRuleStep lbc st pyr = Except.ok st') :
    st'.collections.commercial_modes =
        retainNotGrouped st.collections.commercial_modes pyr.grouped_from ∧
      st'.collections.networks = st.collections.networks ∧
      st'.collections.physical_modes = st.collections.physical_modes ∧
      st'.collections.vehicle_journeys = st.collections.vehicle_journeys ∧
      st'.collections.stop_areas = st.collections.stop_areas ∧
      st'.collections.tickets = st.collections.tickets ∧
      st'.collections.ticket_uses = st.collections.ticket_uses ∧
      st'.collections.ticket_prices = st.collections.ticket_prices ∧
      st'.collections.ticket_use_perimeters =
        st.collections.ticket_use_perimeters ∧
      st'.collections.ticket_use_restrictions =
        st.collections.ticket_use_restrictions ∧
      (st'.staged = st.staged ∨
        ∃ n, st'.staged = st.staged ++ [n] ∧
          rowGet pyr.properties "commercial_mode_id" = some n.id) ∧
      (∃ e, st'.report = st.report ++ e) ∧
      (∃ t, rowGet pyr.properties "commercial_mode_id" = some t) := by
  unfold commercialModesRuleStep at h
  rcases hck : pyr.check "commercial_mode_id" st.report with e | ⟨idOpt, report⟩
  · rw [hck] at h; cases h
  · rw [hck] at h
    rcases idOpt with _ | commercial_mode_id
    · simp only [] at h
      obtain rfl := (Except.ok.inj h).symm
      obtain ⟨hgf, t, hkey, hrep⟩ :=
        check_ok_none pyr "commercial_mode_id" st.report report hck
      exact ⟨rfl, rfl, rfl, rfl, rfl, rfl, rfl, rfl, rfl, rfl, Or.inl rfl,
        ⟨[ReportEntry.emptyGroupedFrom "commercial_mode_id" t], hrep⟩, ⟨t, hkey⟩⟩
    · simp only [] at h
      rcases hst :
          (if containsId st.collections.commercial_modes commercial_mode_id then
            some st.staged
           else (deserializeCommercialMode pyr.properties).map
             (fun n => st.staged ++ [n])) with _ | staged
      · rw [hst] at h; cases h
      · rw [hst] at h
        simp only [] at h
        obtain rfl := (Except.ok.inj h).symm
        obtain ⟨hkey', hrep', hne⟩ :=
          check_ok_some pyr "commercial_mode_id" st.report commercial_mode_id
            report hck
        refine ⟨rfl, rfl, rfl, rfl, rfl, rfl, rfl, rfl, rfl, rfl, ?_, ?_,
          ⟨commercial_mode_id, hkey'⟩⟩
        · by_cases hc :
              containsId st.collections.commercial_modes commercial_mode_id = true
          · rw [if_pos hc] at hst
            exact Or.inl (Option.some.inj hst).symm
          · rw [if_neg hc] at hst
            obtain ⟨n, hn1, hn2⟩ := Option.map_eq_some'.mp hst
            refine Or.inr ⟨n, hn2.symm, ?_⟩
            exact deserializeCommercialMode_id pyr.properties n hn1
        · obtain ⟨e0, he0⟩ :=
            regroupLoop_report_mono st.collections.commercial_modes
              (repointCommercialModeDeps lbc commercial_mode_id)
              pyr.grouped_from st.collections.lines report false
          simp only [ObjectProperties.regroup]
          by_cases hch :
              (regroupLoop st.collections.commercial_modes
                (repointCommercialModeDeps lbc commercial_mode_id)
                pyr.grouped_from st.collections.lines report false).2.2 = true
          · rw [if_pos hch, he0, hrep']
            exact ⟨e0, rfl⟩
          · rw [if_neg hch, he0, hrep']
            exact ⟨e0 ++
              [ReportEntry.ruleNotApplied "commercial mode" commercial_mode_id],
              by rw [List.append_assoc]⟩

theorem physicalModesRuleStep_anatomy (vbp : String → Option (List Nat))
    (st : PassState PhysicalMode) (pyr : ObjectProperties)
    (st' : PassState PhysicalMode)
    (h : physicalModesRuleStep vbp st pyr = Except.ok st') :
    st'.collections.physical_modes =
        retainNotGrouped st.collections.physical_modes pyr.grouped_from ∧
      st'.collections.networks = st.collections.networks ∧
      st'.collections.lines = st.collections.lines ∧
      st'.collections.commercial_modes = st.collections.commercial_modes ∧
      st'.collections.stop_areas = st.collections.stop_areas ∧
      st'.collections.tickets = st.collections.tickets ∧
      st'.collections.ticket_uses = st.collections.ticket_uses ∧
      st'.collections.ticket_prices = st.collections.ticket_prices ∧
      st'.collections.ticket_use_perimeters =
        st.collections.ticket_use_perimeters ∧
      st'.collections.ticket_use_restrictions =
        st.collections.ticket_use_restrictions ∧
      (st'.staged = st.staged ∨
        ∃ n, st'.staged = st.staged ++ [n] ∧
          rowGet pyr.properties "physical_mode_id" = some n.id) ∧
      (∃ e, st'.report = st.report ++ e) ∧
      (∃ t, rowGet pyr.properties "physical_mode_id" = some t) := by
  unfold physicalModesRuleStep at h
  rcases hck : pyr.check "physical_mode_id" st.report with e | ⟨idOpt, report⟩
  · rw [hck] at h; cases h
  · rw [hck] at h
    rcases idOpt with _ | physical_mode_id
    · simp only [] at h
      obtain rfl := (Except.ok.inj h).symm
      obtain ⟨hgf, t, hkey, hrep⟩ :=
        check_ok_none pyr "physical_mode_id" st.report report hck
      exact ⟨rfl, rfl, rfl, rfl, rfl, rfl, rfl, rfl, rfl, rfl, Or.inl rfl,
        ⟨[ReportEntry.emptyGroupedFrom "physical_mode_id" t], hrep⟩, ⟨t, hkey⟩⟩
    · simp only [] at h
      rcases hst :
          (if containsId st.collections.physical_modes physical_mode_id then
            some st.staged
           else (deserializePhysicalMode pyr.properties).map
             (fun n => st.staged ++ [n])) with _ | staged
      · rw [hst] at h; cases h
      · rw [hst] at h
        simp only [] at h
        obtain rfl := (Except.ok.inj h).symm
        obtain ⟨hkey', hrep', hne⟩ :=
          check_ok_some pyr "physical_mode_id" st.report physical_mode_id
            report hck
        refine ⟨rfl, rfl, rfl, rfl, rfl, rfl, rfl, rfl, rfl, rfl, ?_, ?_,
          ⟨physical_mode_id, hkey'⟩⟩
        · by_cases hc :
              containsId st.collections.physical_modes physical_mode_id = true
          · rw [if_pos hc] at hst
            exact Or.inl (Option.some.inj hst).symm
          · rw [if_neg hc] at hst
            obtain ⟨n, hn1, hn2⟩ := Option.map_eq_some'.mp hst
            refine Or.inr ⟨n, hn2.symm, ?_⟩
            exact deserializePhysicalMode_id pyr.properties n hn1
        · obtain ⟨e0, he0⟩ :=
            regroupLoop_report_mono st.collections.physical_modes
              (repointPhysicalModeDeps vbp physical_mode_id)
              pyr.grouped_from st.collections.vehicle_journeys report false
          simp only [ObjectProperties.regroup]
          by_cases hch :
              (regroupLoop st.collections.physical_modes
                (repointPhysicalModeDeps vbp physical_mode_id)
                pyr.grouped_from st.collections.vehicle_journeys report
                false).2.2 = true
          · rw [if_pos hch, he0, hrep']
            exact ⟨e0, rfl⟩
          · rw [if_neg hch, he0, hrep']
            exact ⟨e0 ++
              [ReportEntry.ruleNotApplied "physical mode" physical_mode_id],
              by rw [List.append_assoc]⟩

theorem retainNotGrouped_nil {α : Type} [HasId α] (l : List α) :
    retainNotGrouped l [] = l := by
  simp [retainNotGrouped]

/-- Target identifiers extracted from a rule list under the given key. -/
def ruleTargets (id_key : String) (rules : List ObjectProperties) :
    List String :=
  rules.filterMap (fun r => rowGet r.properties id_key)

theorem mem_ruleTargets (id_key : String) (rules : List ObjectProperties)
    (r : ObjectProperties) (t : String) (hr : r ∈ rules)
    (ht : rowGet r.properties id_key = some t) :
    t ∈ ruleTargets id_key rules :=
  List.mem_filterMap.mpr ⟨r, hr, ht⟩

theorem networksRuleStep_staged_of_absent (lbn : String → Option (List Nat))
    (st : PassState Network) (pyr : ObjectProperties)
    (st' : PassState Network) (t : String)
    (hkey : rowGet pyr.properties "network_id" = some t)
    (hne : pyr.grouped_from ≠ [])
    (habs : containsId st.collections.networks t = false)
    (h : networksRuleStep lbn st pyr = Except.ok st') :
    ∃ n ∈ st'.staged, n.id = t := by
  unfold networksRuleStep at h
  rcases hck : pyr.check "network_id" st.report with e | ⟨idOpt, report⟩
  · rw [hck] at h; cases h
  · rw [hck] at h
    rcases idOpt with _ | network_id
    · obtain ⟨hgf, _⟩ := check_ok_none pyr "network_id" st.report report hck
      exact absurd hgf hne
    · simp only [] at h
      obtain ⟨hkey', _, _⟩ :=
        check_ok_some pyr "network_id" st.report network_id report hck
      rw [hkey] at hkey'
      obtain rfl := Option.some.inj hkey'
      rw [if_neg (by rw [habs]; exact Bool.false_ne_true)] at h
      rw [deserializeNetwork_of_key pyr.properties t hkey] at h
      simp only [Option.map_some'] at h
      obtain rfl := (Except.ok.inj h).symm
      exact ⟨⟨t, (rowGet pyr.properties "name").getD ""⟩,
        List.mem_append_right _ (List.mem_singleton.mpr rfl), rfl⟩

theorem networks_fold_staged_targets (lbn : String → Option (List Nat))
    (rules0 rules : List ObjectProperties)
    (hsub : ∀ r ∈ rules, r ∈ rules0) :
    ∀ (s s' : PassState Network),
      foldSteps (networksRuleStep lbn) s rules = Except.ok s' →
      (∀ n ∈ s.staged, n.id ∈ ruleTargets "network_id" rules0) →
      ∀ n ∈ s'.staged, n.id ∈ ruleTargets "network_id" rules0 := by
  intro s s' h hp
  refine foldSteps_invariant (networksRuleStep lbn) rules
    (fun u => ∀ n ∈ u.staged, n.id ∈ ruleTargets "network_id" rules0)
    ?_ s s' h hp
  intro u a u' ha hu hstep n hn
  obtain ⟨_, _, _, _, _, _, _, _, _, hstaged, _, _⟩ :=
    networksRuleStep_anatomy lbn u a u' hstep
  rcases hstaged with heq | ⟨m, heq, hmkey⟩
  · exact hu n (heq ▸ hn)
  · rw [heq] at hn
    rcases List.mem_append.mp hn with h1 | h2
    · exact hu n h1
    · obtain rfl := List.mem_singleton.mp h2
      exact mem_ruleTargets "network_id" rules0 a n.id (hsub a ha) hmkey

theorem networks_fold_not_contains (lbn : String → Option (List Nat))
    (rules : List ObjectProperties) (g : String) :
    ∀ (s s' : PassState Network),
      foldSteps (networksRuleStep lbn) s rules = Except.ok s' →
      containsId s.collections.networks g = false →
      containsId s'.collections.networks g = false := by
  intro s s' h hp
  refine foldSteps_invariant (networksRuleStep lbn) rules
    (fun u => containsId u.collections.networks g = false) ?_ s s' h hp
  intro u a u' ha hu hstep
  obtain ⟨hnet, _⟩ := networksRuleStep_anatomy lbn u a u' hstep
  rw [hnet]
  rw [Bool.eq_false_iff]
  intro hc
  have := containsId_filter_le _ _ g hc
  rw [hu] at this
  exact Bool.false_ne_true this

theorem networks_fold_target_kept (lbn : String → Option (List Nat))
    (rules : List ObjectProperties) (t : String)
    (hnt : ∀ r ∈ rules, t ∉ r.grouped_from) :
    ∀ (s s' : PassState Network),
      foldSteps (networksRuleStep lbn) s rules = Except.ok s' →
      (containsId s.collections.networks t = true ∨ ∃ n ∈ s.staged, n.id = t) →
      containsId s'.collections.networks t = true ∨
        ∃ n ∈ s'.staged, n.id = t := by
  intro s s' h hp
  refine foldSteps_invariant (networksRuleStep lbn) rules
    (fun u => containsId u.collections.networks t = true ∨
      ∃ n ∈ u.staged, n.id = t) ?_ s s' h hp
  intro u a u' ha hu hstep
  obtain ⟨hnet, _, _, _, _, _, _, _, _, hstaged, _, _⟩ :=
    networksRuleStep_anatomy lbn u a u' hstep
  rcases hu with hc | ⟨n, hn, hnid⟩
  · refine Or.inl ?_
    rw [hnet]
    exact retainNotGrouped_contains_of _ _ t hc (hnt a ha)
  · refine Or.inr ⟨n, ?_, hnid⟩
    rcases hstaged with heq | ⟨m, heq, _⟩
    · rw [heq]; exact hn
    · rw [heq]; exact List.mem_append_left _ hn

theorem networks_pass_elim (lbn : String → Option (List Nat)) (rep : Report)
    (cols : Collections) (rules : List ObjectProperties)
    (cols' : Collections) (rep' : Report)
    (h : check_and_apply_networks_rules lbn rep cols rules =
      Except.ok (cols', rep')) :
    ∃ stf, foldSteps (networksRuleStep lbn) ⟨cols, rep, []⟩ rules =
        Except.ok stf ∧
      cols' = { stf.collections with
        networks := extendWithId stf.collections.networks stf.staged } ∧
      rep' = stf.report := by
  unfold check_and_apply_networks_rules at h
  rcases hf : foldSteps (networksRuleStep lbn) ⟨cols, rep, []⟩ rules with e | stf
  · rw [hf] at h; cases h
  · rw [hf] at h
    have h2 := Except.ok.inj h
    rw [Prod.mk.injEq] at h2
    exact ⟨stf, rfl, h2.1.symm, h2.2.symm⟩

theorem networks_pass_absorbed_absent (lbn : String → Option (List Nat))
    (rep : Report) (cols : Collections) (rules : List ObjectProperties)
    (cols' : Collections) (rep' : Report)
    (h : check_and_apply_networks_rules lbn rep cols rules =
      Except.ok (cols', rep'))
    (r : ObjectProperties) (hr : r ∈ rules) (g : String)
    (hg : g ∈ r.grouped_from)
    (hng : g ∉ ruleTargets "network_id" rules) :
    containsId cols'.networks g = false := by
  obtain ⟨stf, hf, hcols, _⟩ := networks_pass_elim lbn rep cols rules cols' rep' h
  obtain ⟨l1, l2, rfl⟩ := List.append_of_mem hr
  obtain ⟨sm, hf1, hf2⟩ := foldSteps_append_ok _ l1 (r :: l2) _ stf hf
  obtain ⟨s1, hstep, hf3⟩ := foldSteps_cons_elim _ sm stf r l2 hf2
  have hstagedm : ∀ n ∈ sm.staged,
      n.id ∈ ruleTargets "network_id" (l1 ++ r :: l2) := by
    refine networks_fold_staged_targets lbn (l1 ++ r :: l2) l1
      (fun x hx => List.mem_append_left _ hx) _ sm hf1 ?_
    intro n hn
    cases hn
  have hstaged1 : ∀ n ∈ s1.staged,
      n.id ∈ ruleTargets "network_id" (l1 ++ r :: l2) := by
    refine networks_fold_staged_targets lbn (l1 ++ r :: l2) [r]
      (fun x hx => by
        rw [List.mem_singleton.mp hx]
        exact List.mem_append_right _ (List.mem_cons_self r l2))
      sm s1 ?_ hstagedm
    rw [foldSteps]
    rw [hstep]
    rfl
  have hnet1 : containsId s1.collections.networks g = false := by
    obtain ⟨hnet, _⟩ := networksRuleStep_anatomy lbn sm r s1 hstep
    rw [hnet]
    exact retainNotGrouped_not_contains _ _ g hg
  have hnetf : containsId stf.collections.networks g = false :=
    networks_fold_not_contains lbn l2 g s1 stf hf3 hnet1
  have hstagedf : ∀ n ∈ stf.staged,
      n.id ∈ ruleTargets "network_id" (l1 ++ r :: l2) :=
    networks_fold_staged_targets lbn (l1 ++ r :: l2) l2
      (fun x hx => List.mem_append_right _ (List.mem_cons_of_mem r hx))
      s1 stf hf3 hstaged1
  rw [hcols]
  rw [Bool.eq_false_iff]
  intro hc
  rcases extendWithId_contains_src stf.staged stf.collections.networks g hc
    with h1 | ⟨n, hn, hnid⟩
  · rw [hnetf] at h1
    exact Bool.false_ne_true h1
  · have h3 := hstagedf n hn
    have hgid : n.id = g := hnid
    rw [hgid] at h3
    exact hng h3

theorem networks_pass_target_present (lbn : String → Option (List Nat))
    (rep : Report) (cols : Collections) (rules : List ObjectProperties)
    (cols' : Collections) (rep' : Report)
    (h : check_and_apply_networks_rules lbn rep cols rules =
      Except.ok (cols', rep'))
    (r : ObjectProperties) (hr : r ∈ rules) (t : String)
    (hkey : rowGet r.properties "network_id" = some t)
    (hne : r.grouped_from ≠ [])
    (hnt : ∀ r2 ∈ rules, t ∉ r2.grouped_from) :
    containsId cols'.networks t = true := by
  obtain ⟨stf, hf, hcols, _⟩ := networks_pass_elim lbn rep cols rules cols' rep' h
  obtain ⟨l1, l2, rfl⟩ := List.append_of_mem hr
  obtain ⟨sm, hf1, hf2⟩ := foldSteps_append_ok _ l1 (r :: l2) _ stf hf
  obtain ⟨s1, hstep, hf3⟩ := foldSteps_cons_elim _ sm stf r l2 hf2
  have ha1 : containsId s1.collections.networks t = true ∨
      ∃ n ∈ s1.staged, n.id = t := by
    by_cases hc : containsId sm.collections.networks t = true
    · obtain ⟨hnet, _⟩ := networksRuleStep_anatomy lbn sm r s1 hstep
      refine Or.inl ?_
      rw [hnet]
      exact retainNotGrouped_contains_of _ _ t hc
        (hnt r (List.mem_append_right _ (List.mem_cons_self r l2)))
    · rw [Bool.not_eq_true] at hc
      exact Or.inr
        (networksRuleStep_staged_of_absent lbn sm r s1 t hkey hne hc hstep)
  have haf : containsId stf.collections.networks t = true ∨
      ∃ n ∈ stf.staged, n.id = t :=
    networks_fold_target_kept lbn l2 t
      (fun r2 h2 => hnt r2 (List.mem_append_right _ (List.mem_cons_of_mem r h2)))
      s1 stf hf3 ha1
  rw [hcols]
  rcases haf with hc | ⟨n, hn, hnid⟩
  · exact extendWithId_contains_mono stf.staged _ t hc
  · have := extendWithId_contains_of_mem stf.staged stf.collections.networks n hn
    rw [show HasId.getId n = n.id from rfl, hnid] at this
    exact this

theorem networks_pass_frame (lbn : String → Option (List Nat)) (rep : Report)
    (cols : Collections) (rules : List ObjectProperties)
    (cols' : Collections) (rep' : Report)
    (h : check_and_apply_networks_rules lbn rep cols rules =
      Except.ok (cols', rep')) :
    cols'.commercial_modes = cols.commercial_modes ∧
      cols'.physical_modes = cols.physical_modes ∧
      cols'.vehicle_journeys = cols.vehicle_journeys ∧
      cols'.stop_areas = cols.stop_areas ∧
      cols'.tickets = cols.tickets ∧
      cols'.ticket_uses = cols.ticket_uses ∧
      cols'.ticket_prices = cols.ticket_prices ∧
      cols'.ticket_use_restrictions = cols.ticket_use_restrictions := by
  obtain ⟨stf, hf, hcols, _⟩ := networks_pass_elim lbn rep cols rules cols' rep' h
  have hinv :
      stf.collections.commercial_modes = cols.commercial_modes ∧
        stf.collections.physical_modes = cols.physical_modes ∧
        stf.collections.vehicle_journeys = cols.vehicle_journeys ∧
        stf.collections.stop_areas = cols.stop_areas ∧
        stf.collections.tickets = cols.tickets ∧
        stf.collections.ticket_uses = cols.ticket_uses ∧
        stf.collections.ticket_prices = cols.ticket_prices ∧
        stf.collections.ticket_use_restrictions = cols.ticket_use_restrictions := by
    refine foldSteps_invariant (networksRuleStep lbn) rules
      (fun u =>
        u.collections.commercial_modes = cols.commercial_modes ∧
          u.collections.physical_modes = cols.physical_modes ∧
          u.collections.vehicle_journeys = cols.vehicle_journeys ∧
          u.collections.stop_areas = cols.stop_areas ∧
          u.collections.tickets = cols.tickets ∧
          u.collections.ticket_uses = cols.ticket_uses ∧
          u.collections.ticket_prices = cols.ticket_prices ∧
          u.collections.ticket_use_restrictions = cols.ticket_use_restrictions)
      ?_ _ stf hf
      ⟨rfl, rfl, rfl, rfl, rfl, rfl, rfl, rfl⟩
    intro u a u' ha hu hstep
    obtain ⟨_, h2, h3, h4, h5, h6, h7, h8, h9, _⟩ :=
      networksRuleStep_anatomy lbn u a u' hstep
    exact ⟨h2.trans hu.1, h3.trans hu.2.1, h4.trans hu.2.2.1,
      h5.trans hu.2.2.2.1, h6.trans hu.2.2.2.2.1, h7.trans hu.2.2.2.2.2.1,
      h8.trans hu.2.2.2.2.2.2.1, h9.trans hu.2.2.2.2.2.2.2⟩
  rw [hcols]
  exact hinv

theorem networks_pass_checks_ok (lbn : String → Option (List Nat))
    (rep : Report) (cols : Collections) (rules : List ObjectProperties)
    (cols' : Collections) (rep' : Report)
    (h : check_and_apply_networks_rules lbn rep cols rules =
      Except.ok (cols', rep'))
    (r : ObjectProperties) (hr : r ∈ rules) :
    ∃ t, rowGet r.properties "network_id" = some t := by
  obtain ⟨stf, hf, _, _⟩ := networks_pass_elim lbn rep cols rules cols' rep' h
  obtain ⟨u, u', hstep⟩ := foldSteps_mem_ok (networksRuleStep lbn) rules r hr _ stf hf
  obtain ⟨_, _, _, _, _, _, _, _, _, _, _, hkey⟩ :=
    networksRuleStep_anatomy lbn u r u' hstep
  exact hkey

theorem networksRuleStep_noop (lbn : String → Option (List Nat))
    (C : Collections) (rep : Report) (staged : List Network)
    (pyr : ObjectProperties) (t : String)
    (hkey : rowGet pyr.properties "network_id" = some t)
    (hpres : pyr.grouped_from ≠ [] → containsId C.networks t = true)
    (habs : ∀ g ∈ pyr.grouped_from, containsId C.networks g = false) :
    networksRuleStep lbn ⟨C, rep, staged⟩ pyr =
      Except.ok ⟨C, rep ++ ruleNoopEntries "network_id" "network" pyr, staged⟩ := by
  by_cases hgf : pyr.grouped_from.isEmpty = true
  · have hck : pyr.check "network_id" rep =
        Except.ok (none, rep ++ [ReportEntry.emptyGroupedFrom "network_id" t]) := by
      unfold ObjectProperties.check
      rw [hkey]
      simp only []
      rw [if_pos hgf]
    unfold networksRuleStep
    rw [show (⟨C, rep, staged⟩ : PassState Network).report = rep from rfl, hck]
    simp only []
    have hgfe : pyr.grouped_from = [] := List.isEmpty_iff.mp hgf
    rw [hgfe, retainNotGrouped_nil]
    simp [ruleNoopEntries, hkey, hgfe]
  · have hne : pyr.grouped_from ≠ [] := by
      intro hc
      rw [hc] at hgf
      exact hgf rfl
    have hck : pyr.check "network_id" rep = Except.ok (some t, rep) := by
      unfold ObjectProperties.check
      rw [hkey]
      simp only []
      rw [if_neg hgf]
    unfold networksRuleStep
    rw [show (⟨C, rep, staged⟩ : PassState Network).report = rep from rfl, hck]
    simp only []
    rw [if_pos (hpres hne)]
    simp only [ObjectProperties.regroup]
    rw [regroupLoop_all_absent
      ((⟨C, rep, staged⟩ : PassState Network).collections.networks)
      (repointNetworkDeps lbn t) pyr.grouped_from habs]
    simp only []
    rw [retainNotGrouped_eq_self _ _ habs]
    simp [ruleNoopEntries, hkey, hgf, List.append_assoc]

theorem networks_fold_noop (lbn : String → Option (List Nat))
    (C : Collections) (rules : List ObjectProperties)
    (H : ∀ r ∈ rules, ∃ t, rowGet r.properties "network_id" = some t ∧
        (r.grouped_from ≠ [] → containsId C.networks t = true) ∧
        ∀ g ∈ r.grouped_from, containsId C.networks g = false) :
    ∀ (rep : Report) (staged : List Network),
      foldSteps (networksRuleStep lbn) ⟨C, rep, staged⟩ rules =
        Except.ok
          ⟨C, rep ++ rulesNoopEntries "network_id" "network" rules, staged⟩ := by
  induction rules with
  | nil =>
    intro rep staged
    simp [foldSteps, rulesNoopEntries]
  | cons r rs ih =>
    intro rep staged
    obtain ⟨t, hkey, hpres, habs⟩ := H r (List.mem_cons_self r rs)
    rw [foldSteps_cons_ok _ _ _ _ _
      (networksRuleStep_noop lbn C rep staged r t hkey hpres habs)]
    rw [ih (fun x hx => H x (List.mem_cons_of_mem r hx))]
    simp [rulesNoopEntries, List.append_assoc]

theorem networks_pass_noop (lbn : String → Option (List Nat))
    (C : Collections) (rules : List ObjectProperties)
    (H : ∀ r ∈ rules, ∃ t, rowGet r.properties "network_id" = some t ∧
        (r.grouped_from ≠ [] → containsId C.networks t = true) ∧
        ∀ g ∈ r.grouped_from, containsId C.networks g = false)
    (rep : Report) :
    check_and_apply_networks_rules lbn rep C rules =
      Except.ok (C, rep ++ rulesNoopEntries "network_id" "network" rules) := by
  unfold check_and_apply_networks_rules
  rw [networks_fold_noop lbn C rules H rep []]
  rfl

theorem commercialModesRuleStep_staged_of_absent
    (lbc : String → Option (List Nat)) (st : PassState CommercialMode)
    (pyr : ObjectProperties) (st' : PassState CommercialMode) (t : String)
    (hkey : rowGet pyr.properties "commercial_mode_id" = some t)
    (hne : pyr.grouped_from ≠ [])
    (habs : containsId st.collections.commercial_modes t = false)
    (h : commercialModesRuleStep lbc st pyr = Except.ok st') :
    ∃ n ∈ st'.staged, n.id = t := by
  unfold commercialModesRuleStep at h
  rcases hck : pyr.check "commercial_mode_id" st.report with e | ⟨idOpt, report⟩
  · rw [hck] at h; cases h
  · rw [hck] at h
    rcases idOpt with _ | cm_id
    · obtain ⟨hgf, _⟩ :=
        check_ok_none pyr "commercial_mode_id" st.report report hck
      exact absurd hgf hne
    · simp only [] at h
      obtain ⟨hkey2, _, _⟩ :=
        check_ok_some pyr "commercial_mode_id" st.report cm_id report hck
      rw [hkey] at hkey2
      obtain rfl := Option.some.inj hkey2
      rw [if_neg (by rw [habs]; exact Bool.false_ne_true)] at h
      rw [deserializeCommercialMode_of_key pyr.properties t hkey] at h
      simp only [Option.map_some'] at h
      obtain rfl := (Except.ok.inj h).symm
      exact ⟨⟨t, (rowGet pyr.properties "name").getD ""⟩,
        List.mem_append_right _ (List.mem_singleton.mpr rfl), rfl⟩

theorem commercial_fold_staged_targets (lbc : String → Option (List Nat))
    (rules0 rules : List ObjectProperties)
    (hsub : ∀ r ∈ rules, r ∈ rules0) :
    ∀ (s s' : PassState CommercialMode),
      foldSteps (commercialModesRuleStep lbc) s rules = Except.ok s' →
      (∀ n ∈ s.staged, n.id ∈ ruleTargets "commercial_mode_id" rules0) →
      ∀ n ∈ s'.staged, n.id ∈ ruleTargets "commercial_mode_id" rules0 := by
  intro s s' h hp
  refine foldSteps_invariant (commercialModesRuleStep lbc) rules
    (fun u => ∀ n ∈ u.staged, n.id ∈ ruleTargets "commercial_mode_id" rules0)
    ?_ s s' h hp
  intro u a u' ha hu hstep n hn
  obtain ⟨_, _, _, _, _, _, _, _, _, _, hstaged, _, _⟩ :=
    commercialModesRuleStep_anatomy lbc u a u' hstep
  rcases hstaged with heq | ⟨m, heq, hmkey⟩
  · exact hu n (heq ▸ hn)
  · rw [heq] at hn
    rcases List.mem_append.mp hn with h1 | h2
    · exact hu n h1
    · obtain rfl := List.mem_singleton.mp h2
      exact mem_ruleTargets "commercial_mode_id" rules0 a n.id (hsub a ha) hmkey

theorem commercial_fold_not_contains (lbc : String → Option (List Nat))
    (rules : List ObjectProperties) (g : String) :
    ∀ (s s' : PassState CommercialMode),
      foldSteps (commercialModesRuleStep lbc) s rules = Except.ok s' →
      containsId s.collections.commercial_modes g = false →
      containsId s'.collections.commercial_modes g = false := by
  intro s s' h hp
  refine foldSteps_invariant (commercialModesRuleStep lbc) rules
    (fun u => containsId u.collections.commercial_modes g = false) ?_ s s' h hp
  intro u a u' ha hu hstep
  obtain ⟨hcm, _⟩ := commercialModesRuleStep_anatomy lbc u a u' hstep
  rw [hcm]
  rw [Bool.eq_false_iff]
  intro hc
  have := containsId_filter_le _ _ g hc
  rw [hu] at this
  exact Bool.false_ne_true this

theorem commercial_fold_target_kept (lbc : String → Option (List Nat))
    (rules : List ObjectProperties) (t : String)
    (hnt : ∀ r ∈ rules, t ∉ r.grouped_from) :
    ∀ (s s' : PassState CommercialMode),
      foldSteps (commercialModesRuleStep lbc) s rules = Except.ok s' →
      (containsId s.collections.commercial_modes t = true ∨
        ∃ n ∈ s.staged, n.id = t) →
      containsId s'.collections.commercial_modes t = true ∨
        ∃ n ∈ s'.staged, n.id = t := by
  intro s s' h hp
  refine foldSteps_invariant (commercialModesRuleStep lbc) rules
    (fun u => containsId u.collections.commercial_modes t = true ∨
      ∃ n ∈ u.staged, n.id = t) ?_ s s' h hp
  intro u a u' ha hu hstep
  obtain ⟨hcm, _, _, _, _, _, _, _, _, _, hstaged, _, _⟩ :=
    commercialModesRuleStep_anatomy lbc u a u' hstep
  rcases hu with hc | ⟨n, hn, hnid⟩
  · refine Or.inl ?_
    rw [hcm]
    exact retainNotGrouped_contains_of _ _ t hc (hnt a ha)
  · refine Or.inr ⟨n, ?_, hnid⟩
    rcases hstaged with heq | ⟨m, heq, _⟩
    · rw [heq]; exact hn
    · rw [heq]; exact List.mem_append_left _ hn

theorem commercial_pass_elim (lbc : String → Option (List Nat)) (rep : Report)
    (cols : Collections) (rules : List ObjectProperties)
    (cols' : Collections) (rep' : Report)
    (h : check_and_apply_commercial_modes_rules lbc rep cols rules =
      Except.ok (cols', rep')) :
    ∃ stf, foldSteps (commercialModesRuleStep lbc) ⟨cols, rep, []⟩ rules =
        Except.ok stf ∧
      cols' = { stf.collections with
        commercial_modes :=
          extendWithId stf.collections.commercial_modes stf.staged } ∧
      rep' = stf.report := by
  unfold check_and_apply_commercial_modes_rules at h
  rcases hf : foldSteps (commercialModesRuleStep lbc) ⟨cols, rep, []⟩ rules
    with e | stf
  · rw [hf] at h; cases h
  · rw [hf] at h
    have h2 := Except.ok.inj h
    rw [Prod.mk.injEq] at h2
    exact ⟨stf, rfl, h2.1.symm, h2.2.symm⟩

theorem commercial_pass_absorbed_absent (lbc : String → Option (List Nat))
    (rep : Report) (cols : Collections) (rules : List ObjectProperties)
    (cols' : Collections) (rep' : Report)
    (h : check_and_apply_commercial_modes_rules lbc rep cols rules =
      Except.ok (cols', rep'))
    (r : ObjectProperties) (hr : r ∈ rules) (g : String)
    (hg : g ∈ r.grouped_from)
    (hng : g ∉ ruleTargets "commercial_mode_id" rules) :
    containsId cols'.commercial_modes g = false := by
  obtain ⟨stf, hf, hcols, _⟩ :=
    commercial_pass_elim lbc rep cols rules cols' rep' h
  obtain ⟨l1, l2, rfl⟩ := List.append_of_mem hr
  obtain ⟨sm, hf1, hf2⟩ := foldSteps_append_ok _ l1 (r :: l2) _ stf hf
  obtain ⟨s1, hstep, hf3⟩ := foldSteps_cons_elim _ sm stf r l2 hf2
  have hstagedm : ∀ n ∈ sm.staged,
      n.id ∈ ruleTargets "commercial_mode_id" (l1 ++ r :: l2) := by
    refine commercial_fold_staged_targets lbc (l1 ++ r :: l2) l1
      (fun x hx => List.mem_append_left _ hx) _ sm hf1 ?_
    intro n hn
    cases hn
  have hstaged1 : ∀ n ∈ s1.staged,
      n.id ∈ ruleTargets "commercial_mode_id" (l1 ++ r :: l2) := by
    refine commercial_fold_staged_targets lbc (l1 ++ r :: l2) [r]
      (fun x hx => by
        rw [List.mem_singleton.mp hx]
        exact List.mem_append_right _ (List.mem_cons_self r l2))
      sm s1 ?_ hstagedm
    rw [foldSteps]
    rw [hstep]
    rfl
  have hcm1 : containsId s1.collections.commercial_modes g = false := by
    obtain ⟨hcm, _⟩ := commercialModesRuleStep_anatomy lbc sm r s1 hstep
    rw [hcm]
    exact retainNotGrouped_not_contains _ _ g hg
  have hcmf : containsId stf.collections.commercial_modes g = false :=
    commercial_fold_not_contains lbc l2 g s1 stf hf3 hcm1
  have hstagedf : ∀ n ∈ stf.staged,
      n.id ∈ ruleTargets "commercial_mode_id" (l1 ++ r :: l2) :=
    commercial_fold_staged_targets lbc (l1 ++ r :: l2) l2
      (fun x hx => List.mem_append_right _ (List.mem_cons_of_mem r hx))
      s1 stf hf3 hstaged1
  rw [hcols]
  rw [Bool.eq_false_iff]
  intro hc
  rcases extendWithId_contains_src stf.staged stf.collections.commercial_modes
    g hc with h1 | ⟨n, hn, hnid⟩
  · rw [hcmf] at h1
    exact Bool.false_ne_true h1
  · have h3 := hstagedf n hn
    have hgid : n.id = g := hnid
    rw [hgid] at h3
    exact hng h3

theorem commercial_pass_target_present (lbc : String → Option (List Nat))
    (rep : Report) (cols : Collections) (rules : List ObjectProperties)
    (cols' : Collections) (rep' : Report)
    (h : check_and_apply_commercial_modes_rules lbc rep cols rules =
      Except.ok (cols', rep'))
    (r : ObjectProperties) (hr : r ∈ rules) (t : String)
    (hkey : rowGet r.properties "commercial_mode_id" = some t)
    (hne : r.grouped_from ≠ [])
    (hnt : ∀ r2 ∈ rules, t ∉ r2.grouped_from) :
    containsId cols'.commercial_modes t = true := by
  obtain ⟨stf, hf, hcols, _⟩ :=
    commercial_pass_elim lbc rep cols rules cols' rep' h
  obtain ⟨l1, l2, rfl⟩ := List.append_of_mem hr
  obtain ⟨sm, hf1, hf2⟩ := foldSteps_append_ok _ l1 (r :: l2) _ stf hf
  obtain ⟨s1, hstep, hf3⟩ := foldSteps_cons_elim _ sm stf r l2 hf2
  have ha1 : containsId s1.collections.commercial_modes t = true ∨
      ∃ n ∈ s1.staged, n.id = t := by
    by_cases hc : containsId sm.collections.commercial_modes t = true
    · obtain ⟨hcm, _⟩ := commercialModesRuleStep_anatomy lbc sm r s1 hstep
      refine Or.inl ?_
      rw [hcm]
      exact retainNotGrouped_contains_of _ _ t hc
        (hnt r (List.mem_append_right _ (List.mem_cons_self r l2)))
    · rw [Bool.not_eq_true] at hc
      exact Or.inr
        (commercialModesRuleStep_staged_of_absent lbc sm r s1 t hkey hne hc hstep)
  have haf : containsId stf.collections.commercial_modes t = true ∨
      ∃ n ∈ stf.staged, n.id = t :=
    commercial_fold_target_kept lbc l2 t
      (fun r2 h2 => hnt r2 (List.mem_append_right _ (List.mem_cons_of_mem r h2)))
      s1 stf hf3 ha1
  rw [hcols]
  rcases haf with hc | ⟨n, hn, hnid⟩
  · exact extendWithId_contains_mono stf.staged _ t hc
  · have := extendWithId_contains_of_mem stf.staged
      stf.collections.commercial_modes n hn
    rw [show HasId.getId n = n.id from rfl, hnid] at this
    exact this

theorem commercial_pass_frame (lbc : String → Option (List Nat)) (rep : Report)
    (cols : Collections) (rules : List ObjectProperties)
    (cols' : Collections) (rep' : Report)
    (h : check_and_apply_commercial_modes_rules lbc rep cols rules =
      Except.ok (cols', rep')) :
    cols'.networks = cols.networks ∧
      cols'.physical_modes = cols.physical_modes ∧
      cols'.vehicle_journeys = cols.vehicle_journeys ∧
      cols'.stop_areas = cols.stop_areas ∧
      cols'.tickets = cols.tickets ∧
      cols'.ticket_uses = cols.ticket_uses ∧
      cols'.ticket_prices = cols.ticket_prices ∧
      cols'.ticket_use_perimeters = cols.ticket_use_perimeters ∧
      cols'.ticket_use_restrictions = cols.ticket_use_restrictions := by
  obtain ⟨stf, hf, hcols, _⟩ :=
    commercial_pass_elim lbc rep cols rules cols' rep' h
  have hinv :
      stf.collections.networks = cols.networks ∧
        stf.collections.physical_modes = cols.physical_modes ∧
        stf.collections.vehicle_journeys = cols.vehicle_journeys ∧
        stf.collections.stop_areas = cols.stop_areas ∧
        stf.collections.tickets = cols.tickets ∧
        stf.collections.ticket_uses = cols.ticket_uses ∧
        stf.collections.ticket_prices = cols.ticket_prices ∧
        stf.collections.ticket_use_perimeters = cols.ticket_use_perimeters ∧
        stf.collections.ticket_use_restrictions =
          cols.ticket_use_restrictions := by
    refine foldSteps_invariant (commercialModesRuleStep lbc) rules
      (fun u =>
        u.collections.networks = cols.networks ∧
          u.collections.physical_modes = cols.physical_modes ∧
          u.collections.vehicle_journeys = cols.vehicle_journeys ∧
          u.collections.stop_areas = cols.stop_areas ∧
          u.collections.tickets = cols.tickets ∧
          u.collections.ticket_uses = cols.ticket_uses ∧
          u.collections.ticket_prices = cols.ticket_prices ∧
          u.collections.ticket_use_perimeters = cols.ticket_use_perimeters ∧
          u.collections.ticket_use_restrictions = cols.ticket_use_restrictions)
      ?_ _ stf hf
      ⟨rfl, rfl, rfl, rfl, rfl, rfl, rfl, rfl, rfl⟩
    intro u a u' ha hu hstep
    obtain ⟨_, h2, h3, h4, h5, h6, h7, h8, h9, h10, _⟩ :=
      commercialModesRuleStep_anatomy lbc u a u' hstep
    exact ⟨h2.trans hu.1, h3.trans hu.2.1, h4.trans hu.2.2.1,
      h5.trans hu.2.2.2.1, h6.trans hu.2.2.2.2.1, h7.trans hu.2.2.2.2.2.1,
      h8.trans hu.2.2.2.2.2.2.1, h9.trans hu.2.2.2.2.2.2.2.1,
      h10.trans hu.2.2.2.2.2.2.2.2⟩
  rw [hcols]
  exact hinv

theorem commercial_pass_checks_ok (lbc : String → Option (List Nat))
    (rep : Report) (cols : Collections) (rules : List ObjectProperties)
    (cols' : Collections) (rep' : Report)
    (h : check_and_apply_commercial_modes_rules lbc rep cols rules =
      Except.ok (cols', rep'))
    (r : ObjectProperties) (hr : r ∈ rules) :
    ∃ t, rowGet r.properties "commercial_mode_id" = some t := by
  obtain ⟨stf, hf, _, _⟩ := commercial_pass_elim lbc rep cols rules cols' rep' h
  obtain ⟨u, u', hstep⟩ :=
    foldSteps_mem_ok (commercialModesRuleStep lbc) rules r hr _ stf hf
  obtain ⟨_, _, _, _, _, _, _, _, _, _, _, _, hkey⟩ :=
    commercialModesRuleStep_anatomy lbc u r u' hstep
  exact hkey

theorem commercialModesRuleStep_noop (lbc : String → Option (List Nat))
    (C : Collections) (rep : Report) (staged : List CommercialMode)
    (pyr : ObjectProperties) (t : String)
    (hkey : rowGet pyr.properties "commercial_mode_id" = some t)
    (hpres : pyr.grouped_from ≠ [] → containsId C.commercial_modes t = true)
    (habs : ∀ g ∈ pyr.grouped_from, containsId C.commercial_modes g = false) :
    commercialModesRuleStep lbc ⟨C, rep, staged⟩ pyr =
      Except.ok
        ⟨C, rep ++ ruleNoopEntries "commercial_mode_id" "commercial mode" pyr,
         staged⟩ := by
  by_cases hgf : pyr.grouped_from.isEmpty = true
  · have hck : pyr.check "commercial_mode_id" rep =
        Except.ok
          (none, rep ++ [ReportEntry.emptyGroupedFrom "commercial_mode_id" t]) := by
      unfold ObjectProperties.check
      rw [hkey]
      simp only []
      rw [if_pos hgf]
    unfold commercialModesRuleStep
    rw [show (⟨C, rep, staged⟩ : PassState CommercialMode).report = rep from rfl,
      hck]
    simp only []
    have hgfe : pyr.grouped_from = [] := List.isEmpty_iff.mp hgf
    rw [hgfe, retainNotGrouped_nil]
    simp [ruleNoopEntries, hkey, hgfe]
  · have hne : pyr.grouped_from ≠ [] := by
      intro hc
      rw [hc] at hgf
      exact hgf rfl
    have hck : pyr.check "commercial_mode_id" rep = Except.ok (some t, rep) := by
      unfold ObjectProperties.check
      rw [hkey]
      simp only []
      rw [if_neg hgf]
    unfold commercialModesRuleStep
    rw [show (⟨C, rep, staged⟩ : PassState CommercialMode).report = rep from rfl,
      hck]
    simp only []
    rw [if_pos (hpres hne)]
    simp only [ObjectProperties.regroup]
    rw [regroupLoop_all_absent
      ((⟨C, rep, staged⟩ : PassState CommercialMode).collections.commercial_modes)
      (repointCommercialModeDeps lbc t) pyr.grouped_from habs]
    simp only []
    rw [retainNotGrouped_eq_self _ _ habs]
    simp [ruleNoopEntries, hkey, hgf, List.append_assoc]

theorem commercial_fold_noop (lbc : String → Option (List Nat))
    (C : Collections) (rules : List ObjectProperties)
    (H : ∀ r ∈ rules, ∃ t, rowGet r.properties "commercial_mode_id" = some t ∧
        (r.grouped_from ≠ [] → containsId C.commercial_modes t = true) ∧
        ∀ g ∈ r.grouped_from, containsId C.commercial_modes g = false) :
    ∀ (rep : Report) (staged : List CommercialMode),
      foldSteps (commercialModesRuleStep lbc) ⟨C, rep, staged⟩ rules =
        Except.ok
          ⟨C,
           rep ++ rulesNoopEntries "commercial_mode_id" "commercial mode" rules,
           staged⟩ := by
  induction rules with
  | nil =>
    intro rep staged
    simp [foldSteps, rulesNoopEntries]
  | cons r rs ih =>
    intro rep staged
    obtain ⟨t, hkey, hpres, habs⟩ := H r (List.mem_cons_self r rs)
    rw [foldSteps_cons_ok _ _ _ _ _
      (commercialModesRuleStep_noop lbc C rep staged r t hkey hpres habs)]
    rw [ih (fun x hx => H x (List.mem_cons_of_mem r hx))]
    simp [rulesNoopEntries, List.append_assoc]

theorem commercial_pass_noop (lbc : String → Option (List Nat))
    (C : Collections) (rules : List ObjectProperties)
    (H : ∀ r ∈ rules, ∃ t, rowGet r.properties "commercial_mode_id" = some t ∧
        (r.grouped_from ≠ [] → containsId C.commercial_modes t = true) ∧
        ∀ g ∈ r.grouped_from, containsId C.commercial_modes g = false)
    (rep : Report) :
    check_and_apply_commercial_modes_rules lbc rep C rules =
      Except.ok
        (C, rep ++ rulesNoopEntries "commercial_mode_id" "commercial mode" rules) := by
  unfold check_and_apply_commercial_modes_rules
  rw [commercial_fold_noop lbc C rules H rep []]
  rfl

theorem physicalModesRuleStep_staged_of_absent
    (vbp : String → Option (List Nat)) (st : PassState PhysicalMode)
    (pyr : ObjectProperties) (st' : PassState PhysicalMode) (t : String)
    (hkey : rowGet pyr.properties "physical_mode_id" = some t)
    (hne : pyr.grouped_from ≠ [])
    (habs : containsId st.collections.physical_modes t = false)
    (h : physicalModesRuleStep vbp st pyr = Except.ok st') :
    ∃ n ∈ st'.staged, n.id = t := by
  unfold physicalModesRuleStep at h
  rcases hck : pyr.check "physical_mode_id" st.report with e | ⟨idOpt, report⟩
  · rw [hck] at h; cases h
  · rw [hck] at h
    rcases idOpt with _ | pm_id
    · obtain ⟨hgf, _⟩ :=
        check_ok_none pyr "physical_mode_id" st.report report hck
      exact absurd hgf hne
    · simp only [] at h
      obtain ⟨hkey2, _, _⟩ :=
        check_ok_some pyr "physical_mode_id" st.report pm_id report hck
      rw [hkey] at hkey2
      obtain rfl := Option.some.inj hkey2
      rw [if_neg (by rw [habs]; exact Bool.false_ne_true)] at h
      rw [deserializePhysicalMode_of_key pyr.properties t hkey] at h
      simp only [Option.map_some'] at h
      obtain rfl := (Except.ok.inj h).symm
      exact ⟨⟨t, (rowGet pyr.properties "name").getD ""⟩,
        List.mem_append_right _ (List.mem_singleton.mpr rfl), rfl⟩

theorem physical_fold_staged_targets (vbp : String → Option (List Nat))
    (rules0 rules : List ObjectProperties)
    (hsub : ∀ r ∈ rules, r ∈ rules0) :
    ∀ (s s' : PassState PhysicalMode),
      foldSteps (physicalModesRuleStep vbp) s rules = Except.ok s' →
      (∀ n ∈ s.staged, n.id ∈ ruleTargets "physical_mode_id" rules0) →
      ∀ n ∈ s'.staged, n.id ∈ ruleTargets "physical_mode_id" rules0 := by
  intro s s' h hp
  refine foldSteps_invariant (physicalModesRuleStep vbp) rules
    (fun u => ∀ n ∈ u.staged, n.id ∈ ruleTargets "physical_mode_id" rules0)
    ?_ s s' h hp
  intro u a u' ha hu hstep n hn
  obtain ⟨_, _, _, _, _, _, _, _, _, _, hstaged, _, _⟩ :=
    physicalModesRuleStep_anatomy vbp u a u' hstep
  rcases hstaged with heq | ⟨m, heq, hmkey⟩
  · exact hu n (heq ▸ hn)
  · rw [heq] at hn
    rcases List.mem_append.mp hn with h1 | h2
    · exact hu n h1
    · obtain rfl := List.mem_singleton.mp h2
      exact mem_ruleTargets "physical_mode_id" rules0 a n.id (hsub a ha) hmkey

theorem physical_fold_not_contains (vbp : String → Option (List Nat))
    (rules : List ObjectProperties) (g : String) :
    ∀ (s s' : PassState PhysicalMode),
      foldSteps (physicalModesRuleStep vbp) s rules = Except.ok s' →
      containsId s.collections.physical_modes g = false →
      containsId s'.collections.physical_modes g = false := by
  intro s s' h hp
  refine foldSteps_invariant (physicalModesRuleStep vbp) rules
    (fun u => containsId u.collections.physical_modes g = false) ?_ s s' h hp
  intro u a u' ha hu hstep
  obtain ⟨hcm, _⟩ := physicalModesRuleStep_anatomy vbp u a u' hstep
  rw [hcm]
  rw [Bool.eq_false_iff]
  intro hc
  have := containsId_filter_le _ _ g hc
  rw [hu] at this
  exact Bool.false_ne_true this

theorem physical_fold_target_kept (vbp : String → Option (List Nat))
    (rules : List ObjectProperties) (t : String)
    (hnt : ∀ r ∈ rules, t ∉ r.grouped_from) :
    ∀ (s s' : PassState PhysicalMode),
      foldSteps (physicalModesRuleStep vbp) s rules = Except.ok s' →
      (containsId s.collections.physical_modes t = true ∨
        ∃ n ∈ s.staged, n.id = t) →
      containsId s'.collections.physical_modes t = true ∨
        ∃ n ∈ s'.staged, n.id = t := by
  intro s s' h hp
  refine foldSteps_invariant (physicalModesRuleStep vbp) rules
    (fun u => containsId u.collections.physical_modes t = true ∨
      ∃ n ∈ u.staged, n.id = t) ?_ s s' h hp
  intro u a u' ha hu hstep
  obtain ⟨hcm, _, _, _, _, _, _, _, _, _, hstaged, _, _⟩ :=
    physicalModesRuleStep_anatomy vbp u a u' hstep
  rcases hu with hc | ⟨n, hn, hnid⟩
  · refine Or.inl ?_
    rw [hcm]
    exact retainNotGrouped_contains_of _ _ t hc (hnt a ha)
  · refine Or.inr ⟨n, ?_, hnid⟩
    rcases hstaged with heq | ⟨m, heq, _⟩
    · rw [heq]; exact hn
    · rw [heq]; exact List.mem_append_left _ hn

theorem physical_pass_elim (vbp : String → Option (List Nat)) (rep : Report)
    (cols : Collections) (rules : List ObjectProperties)
    (cols' : Collections) (rep' : Report)
    (h : check_and_apply_physical_modes_rules vbp rep cols rules =
      Except.ok (cols', rep')) :
    ∃ stf, foldSteps (physicalModesRuleStep vbp) ⟨cols, rep, []⟩ rules =
        Except.ok stf ∧
      cols' = { stf.collections with
        physical_modes :=
          extendWithId stf.collections.physical_modes stf.staged } ∧
      rep' = stf.report := by
  unfold check_and_apply_physical_modes_rules at h
  rcases hf : foldSteps (physicalModesRuleStep vbp) ⟨cols, rep, []⟩ rules
    with e | stf
  · rw [hf] at h; cases h
  · rw [hf] at h
    have h2 := Except.ok.inj h
    rw [Prod.mk.injEq] at h2
    exact ⟨stf, rfl, h2.1.symm, h2.2.symm⟩

theorem physical_pass_absorbed_absent (vbp : String → Option (List Nat))
    (rep : Report) (cols : Collections) (rules : List ObjectProperties)
    (cols' : Collections) (rep' : Report)
    (h : check_and_apply_physical_modes_rules vbp rep cols rules =
      Except.ok (cols', rep'))
    (r : ObjectProperties) (hr : r ∈ rules) (g : String)
    (hg : g ∈ r.grouped_from)
    (hng : g ∉ ruleTargets "physical_mode_id" rules) :
    containsId cols'.physical_modes g = false := by
  obtain ⟨stf, hf, hcols, _⟩ :=
    physical_pass_elim vbp rep cols rules cols' rep' h
  obtain ⟨l1, l2, rfl⟩ := List.append_of_mem hr
  obtain ⟨sm, hf1, hf2⟩ := foldSteps_append_ok _ l1 (r :: l2) _ stf hf
  obtain ⟨s1, hstep, hf3⟩ := foldSteps_cons_elim _ sm stf r l2 hf2
  have hstagedm : ∀ n ∈ sm.staged,
      n.id ∈ ruleTargets "physical_mode_id" (l1 ++ r :: l2) := by
    refine physical_fold_staged_targets vbp (l1 ++ r :: l2) l1
      (fun x hx => List.mem_append_left _ hx) _ sm hf1 ?_
    intro n hn
    cases hn
  have hstaged1 : ∀ n ∈ s1.staged,
      n.id ∈ ruleTargets "physical_mode_id" (l1 ++ r :: l2) := by
    refine physical_fold_staged_targets vbp (l1 ++ r :: l2) [r]
      (fun x hx => by
        rw [List.mem_singleton.mp hx]
        exact List.mem_append_right _ (List.mem_cons_self r l2))
      sm s1 ?_ hstagedm
    rw [foldSteps]
    rw [hstep]
    rfl
  have hcm1 : containsId s1.collections.physical_modes g = false := by
    obtain ⟨hcm, _⟩ := physicalModesRuleStep_anatomy vbp sm r s1 hstep
    rw [hcm]
    exact retainNotGrouped_not_contains _ _ g hg
  have hcmf : containsId stf.collections.physical_modes g = false :=
    physical_fold_not_contains vbp l2 g s1 stf hf3 hcm1
  have hstagedf : ∀ n ∈ stf.staged,
      n.id ∈ ruleTargets "physical_mode_id" (l1 ++ r :: l2) :=
    physical_fold_staged_targets vbp (l1 ++ r :: l2) l2
      (fun x hx => List.mem_append_right _ (List.mem_cons_of_mem r hx))
      s1 stf hf3 hstaged1
  rw [hcols]
  rw [Bool.eq_false_iff]
  intro hc
  rcases extendWithId_contains_src stf.staged stf.collections.physical_modes
    g hc with h1 | ⟨n, hn, hnid⟩
  · rw [hcmf] at h1
    exact Bool.false_ne_true h1
  · have h3 := hstagedf n hn
    have hgid : n.id = g := hnid
    rw [hgid] at h3
    exact hng h3

theorem physical_pass_target_present (vbp : String → Option (List Nat))
    (rep : Report) (cols : Collections) (rules : List ObjectProperties)
    (cols' : Collections) (rep' : Report)
    (h : check_and_apply_physical_modes_rules vbp rep cols rules =
      Except.ok (cols', rep'))
    (r : ObjectProperties) (hr : r ∈ rules) (t : String)
    (hkey : rowGet r.properties "physical_mode_id" = some t)
    (hne : r.grouped_from ≠ [])
    (hnt : ∀ r2 ∈ rules, t ∉ r2.grouped_from) :
    containsId cols'.physical_modes t = true := by
  obtain ⟨stf, hf, hcols, _⟩ :=
    physical_pass_elim vbp rep cols rules cols' rep' h
  obtain ⟨l1, l2, rfl⟩ := List.append_of_mem hr
  obtain ⟨sm, hf1, hf2⟩ := foldSteps_append_ok _ l1 (r :: l2) _ stf hf
  obtain ⟨s1, hstep, hf3⟩ := foldSteps_cons_elim _ sm stf r l2 hf2
  have ha1 : containsId s1.collections.physical_modes t = true ∨
      ∃ n ∈ s1.staged, n.id = t := by
    by_cases hc : containsId sm.collections.physical_modes t = true
    · obtain ⟨hcm, _⟩ := physicalModesRuleStep_anatomy vbp sm r s1 hstep
      refine Or.inl ?_
      rw [hcm]
      exact retainNotGrouped_contains_of _ _ t hc
        (hnt r (List.mem_append_right _ (List.mem_cons_self r l2)))
    · rw [Bool.not_eq_true] at hc
      exact Or.inr
        (physicalModesRuleStep_staged_of_absent vbp sm r s1 t hkey hne hc hstep)
  have haf : containsId stf.collections.physical_modes t = true ∨
      ∃ n ∈ stf.staged, n.id = t :=
    physical_fold_target_kept vbp l2 t
      (fun r2 h2 => hnt r2 (List.mem_append_right _ (List.mem_cons_of_mem r h2)))
      s1 stf hf3 ha1
  rw [hcols]
  rcases haf with hc | ⟨n, hn, hnid⟩
  · exact extendWithId_contains_mono stf.staged _ t hc
  · have := extendWithId_contains_of_mem stf.staged
      stf.collections.physical_modes n hn
    rw [show HasId.getId n = n.id from rfl, hnid] at this
    exact this

theorem physical_pass_frame (vbp : String → Option (List Nat)) (rep : Report)
    (cols : Collections) (rules : List ObjectProperties)
    (cols' : Collections) (rep' : Report)
    (h : check_and_apply_physical_modes_rules vbp rep cols rules =
      Except.ok (cols', rep')) :
    cols'.networks = cols.networks ∧
      cols'.lines = cols.lines ∧
      cols'.commercial_modes = cols.commercial_modes ∧
      cols'.stop_areas = cols.stop_areas ∧
      cols'.tickets = cols.tickets ∧
      cols'.ticket_uses = cols.ticket_uses ∧
      cols'.ticket_prices = cols.ticket_prices ∧
      cols'.ticket_use_perimeters = cols.ticket_use_perimeters ∧
      cols'.ticket_use_restrictions = cols.ticket_use_restrictions := by
  obtain ⟨stf, hf, hcols, _⟩ :=
    physical_pass_elim vbp rep cols rules cols' rep' h
  have hinv :
      stf.collections.networks = cols.networks ∧
        stf.collections.lines = cols.lines ∧
        stf.collections.commercial_modes = cols.commercial_modes ∧
        stf.collections.stop_areas = cols.stop_areas ∧
        stf.collections.tickets = cols.tickets ∧
        stf.collections.ticket_uses = cols.ticket_uses ∧
        stf.collections.ticket_prices = cols.ticket_prices ∧
        stf.collections.ticket_use_perimeters = cols.ticket_use_perimeters ∧
        stf.collections.ticket_use_restrictions =
          cols.ticket_use_restrictions := by
    refine foldSteps_invariant (physicalModesRuleStep vbp) rules
      (fun u =>
        u.collections.networks = cols.networks ∧
          u.collections.lines = cols.lines ∧
          u.collections.commercial_modes = cols.commercial_modes ∧
          u.collections.stop_areas = cols.stop_areas ∧
          u.collections.tickets = cols.tickets ∧
          u.collections.ticket_uses = cols.ticket_uses ∧
          u.collections.ticket_prices = cols.ticket_prices ∧
          u.collections.ticket_use_perimeters = cols.ticket_use_perimeters ∧
          u.collections.ticket_use_restrictions = cols.ticket_use_restrictions)
      ?_ _ stf hf
      ⟨rfl, rfl, rfl, rfl, rfl, rfl, rfl, rfl, rfl⟩
    intro u a u' ha hu hstep
    obtain ⟨_, h2, h3, h4, h5, h6, h7, h8, h9, h10, _⟩ :=
      physicalModesRuleStep_anatomy vbp u a u' hstep
    exact ⟨h2.trans hu.1, h3.trans hu.2.1, h4.trans hu.2.2.1,
      h5.trans hu.2.2.2.1, h6.trans hu.2.2.2.2.1, h7.trans hu.2.2.2.2.2.1,
      h8.trans hu.2.2.2.2.2.2.1, h9.trans hu.2.2.2.2.2.2.2.1,
      h10.trans hu.2.2.2.2.2.2.2.2⟩
  rw [hcols]
  exact hinv

theorem physical_pass_checks_ok (vbp : String → Option (List Nat))
    (rep : Report) (cols : Collections) (rules : List ObjectProperties)
    (cols' : Collections) (rep' : Report)
    (h : check_and_apply_physical_modes_rules vbp rep cols rules =
      Except.ok (cols', rep'))
    (r : ObjectProperties) (hr : r ∈ rules) :
    ∃ t, rowGet r.properties "physical_mode_id" = some t := by
  obtain ⟨stf, hf, _, _⟩ := physical_pass_elim vbp rep cols rules cols' rep' h
  obtain ⟨u, u', hstep⟩ :=
    foldSteps_mem_ok (physicalModesRuleStep vbp) rules r hr _ stf hf
  obtain ⟨_, _, _, _, _, _, _, _, _, _, _, _, hkey⟩ :=
    physicalModesRuleStep_anatomy vbp u r u' hstep
  exact hkey

theorem physicalModesRuleStep_noop (vbp : String → Option (List Nat))
    (C : Collections) (rep : Report) (staged : List PhysicalMode)
    (pyr : ObjectProperties) (t : String)
    (hkey : rowGet pyr.properties "physical_mode_id" = some t)
    (hpres : pyr.grouped_from ≠ [] → containsId C.physical_modes t = true)
    (habs : ∀ g ∈ pyr.grouped_from, containsId C.physical_modes g = false) :
    physicalModesRuleStep vbp ⟨C, rep, staged⟩ pyr =
      Except.ok
        ⟨C, rep ++ ruleNoopEntries "physical_mode_id" "physical mode" pyr,
         staged⟩ := by
  by_cases hgf : pyr.grouped_from.isEmpty = true
  · have hck : pyr.check "physical_mode_id" rep =
        Except.ok
          (none, rep ++ [ReportEntry.emptyGroupedFrom "physical_mode_id" t]) := by
      unfold ObjectProperties.check
      rw [hkey]
      simp only []
      rw [if_pos hgf]
    unfold physicalModesRuleStep
    rw [show (⟨C, rep, staged⟩ : PassState PhysicalMode).report = rep from rfl,
      hck]
    simp only []
    have hgfe : pyr.grouped_from = [] := List.isEmpty_iff.mp hgf
    rw [hgfe, retainNotGrouped_nil]
    simp [ruleNoopEntries, hkey, hgfe]
  · have hne : pyr.grouped_from ≠ [] := by
      intro hc
      rw [hc] at hgf
      exact hgf rfl
    have hck : pyr.check "physical_mode_id" rep = Except.ok (some t, rep) := by
      unfold ObjectProperties.check
      rw [hkey]
      simp only []
      rw [if_neg hgf]
    unfold physicalModesRuleStep
    rw [show (⟨C, rep, staged⟩ : PassState PhysicalMode).report = rep from rfl,
      hck]
    simp only []
    rw [if_pos (hpres hne)]
    simp only [ObjectProperties.regroup]
    rw [regroupLoop_all_absent
      ((⟨C, rep, staged⟩ : PassState PhysicalMode).collections.physical_modes)
      (repointPhysicalModeDeps vbp t) pyr.grouped_from habs]
    simp only []
    rw [retainNotGrouped_eq_self _ _ habs]
    simp [ruleNoopEntries, hkey, hgf, List.append_assoc]

theorem physical_fold_noop (vbp : String → Option (List Nat))
    (C : Collections) (rules : List ObjectProperties)
    (H : ∀ r ∈ rules, ∃ t, rowGet r.properties "physical_mode_id" = some t ∧
        (r.grouped_from ≠ [] → containsId C.physical_modes t = true) ∧
        ∀ g ∈ r.grouped_from, containsId C.physical_modes g = false) :
    ∀ (rep : Report) (staged : List PhysicalMode),
      foldSteps (physicalModesRuleStep vbp) ⟨C, rep, staged⟩ rules =
        Except.ok
          ⟨C,
           rep ++ rulesNoopEntries "physical_mode_id" "physical mode" rules,
           staged⟩ := by
  induction rules with
  | nil =>
    intro rep staged
    simp [foldSteps, rulesNoopEntries]
  | cons r rs ih =>
    intro rep staged
    obtain ⟨t, hkey, hpres, habs⟩ := H r (List.mem_cons_self r rs)
    rw [foldSteps_cons_ok _ _ _ _ _
      (physicalModesRuleStep_noop vbp C rep staged r t hkey hpres habs)]
    rw [ih (fun x hx => H x (List.mem_cons_of_mem r hx))]
    simp [rulesNoopEntries, List.append_assoc]

theorem physical_pass_noop (vbp : String → Option (List Nat))
    (C : Collections) (rules : List ObjectProperties)
    (H : ∀ r ∈ rules, ∃ t, rowGet r.properties "physical_mode_id" = some t ∧
        (r.grouped_from ≠ [] → containsId C.physical_modes t = true) ∧
        ∀ g ∈ r.grouped_from, containsId C.physical_modes g = false)
    (rep : Report) :
    check_and_apply_physical_modes_rules vbp rep C rules =
      Except.ok
        (C, rep ++ rulesNoopEntries "physical_mode_id" "physical mode" rules) := by
  unfold check_and_apply_physical_modes_rules
  rw [physical_fold_noop vbp C rules H rep []]
  rfl

theorem apply_rules_elim (rule : ObjectRule) (cols : Collections)
    (rep : Report) (cols' : Collections) (rep' : Report)
    (h : rule.apply_rules cols rep = Except.ok (cols', rep')) :
    ∃ colsA repA colsB repB,
      runNetworksStage rule cols rep = Except.ok (colsA, repA) ∧
      runCommercialModesStage rule colsA repA = Except.ok (colsB, repB) ∧
      runPhysicalModesStage rule colsB repB = Except.ok (cols', rep') := by
  unfold ObjectRule.apply_rules at h
  rcases h1 : runNetworksStage rule cols rep with e | ⟨colsA, repA⟩
  · rw [h1] at h; cases h
  · rw [h1] at h
    simp only [] at h
    rcases h2 : runCommercialModesStage rule colsA repA with e | ⟨colsB, repB⟩
    · rw [h2] at h; cases h
    · rw [h2] at h
      simp only [] at h
      exact ⟨colsA, repA, colsB, repB, rfl, h2, h⟩

theorem networks_stage_elim (config : ObjectRuleConfiguration)
    (cols0 colsIn : Collections) (rep : Report) (colsOut : Collections)
    (repOut : Report)
    (h : runNetworksStage (ObjectRule.new config cols0) colsIn rep =
      Except.ok (colsOut, repOut)) :
    (config.networks_rules = none ∧ colsOut = colsIn ∧ repOut = rep) ∨
    (∃ rs, config.networks_rules = some rs ∧
      check_and_apply_networks_rules
        (linesByNetwork cols0.networks cols0.lines) rep colsIn rs =
        Except.ok (colsOut, repOut)) := by
  rcases hnr : config.networks_rules with _ | rs
  · refine Or.inl ⟨rfl, ?_, ?_⟩ <;>
    · unfold runNetworksStage ObjectRule.new at h
      simp only [hnr] at h
      have h2 := Except.ok.inj h
      rw [Prod.mk.injEq] at h2
      first
      | exact h2.1.symm
      | exact h2.2.symm
  · refine Or.inr ⟨rs, rfl, ?_⟩
    unfold runNetworksStage ObjectRule.new at h
    simp only [hnr, Option.map_some'] at h
    exact h

theorem commercial_stage_elim (config : ObjectRuleConfiguration)
    (cols0 colsIn : Collections) (rep : Report) (colsOut : Collections)
    (repOut : Report)
    (h : runCommercialModesStage (ObjectRule.new config cols0) colsIn rep =
      Except.ok (colsOut, repOut)) :
    (config.commercial_modes_rules = none ∧ colsOut = colsIn ∧ repOut = rep) ∨
    (∃ rs, config.commercial_modes_rules = some rs ∧
      check_and_apply_commercial_modes_rules
        (linesByCommercialMode cols0.commercial_modes cols0.lines) rep colsIn
        rs = Except.ok (colsOut, repOut)) := by
  rcases hnr : config.commercial_modes_rules with _ | rs
  · refine Or.inl ⟨rfl, ?_, ?_⟩ <;>
    · unfold runCommercialModesStage ObjectRule.new at h
      simp only [hnr] at h
      have h2 := Except.ok.inj h
      rw [Prod.mk.injEq] at h2
      first
      | exact h2.1.symm
      | exact h2.2.symm
  · refine Or.inr ⟨rs, rfl, ?_⟩
    unfold runCommercialModesStage ObjectRule.new at h
    simp only [hnr, Option.map_some'] at h
    exact h

theorem physical_stage_elim (config : ObjectRuleConfiguration)
    (cols0 colsIn : Collections) (rep : Report) (colsOut : Collections)
    (repOut : Report)
    (h : runPhysicalModesStage (ObjectRule.new config cols0) colsIn rep =
      Except.ok (colsOut, repOut)) :
    (config.physical_modes_rules = none ∧ colsOut = colsIn ∧ repOut = rep) ∨
    (∃ rs, config.physical_modes_rules = some rs ∧
      check_and_apply_physical_modes_rules
        (vjsByPhysicalMode cols0.physical_modes cols0.vehicle_journeys) rep
        colsIn rs = Except.ok (colsOut, repOut)) := by
  rcases hnr : config.physical_modes_rules with _ | rs
  · refine Or.inl ⟨rfl, ?_, ?_⟩ <;>
    · unfold runPhysicalModesStage ObjectRule.new at h
      simp only [hnr] at h
      have h2 := Except.ok.inj h
      rw [Prod.mk.injEq] at h2
      first
      | exact h2.1.symm
      | exact h2.2.symm
  · refine Or.inr ⟨rs, rfl, ?_⟩
    unfold runPhysicalModesStage ObjectRule.new at h
    simp only [hnr, Option.map_some'] at h
    exact h

theorem networks_stage_noop (config : ObjectRuleConfiguration)
    (cols0 C : Collections) (rep : Report)
    (H : ∀ rs, config.networks_rules = some rs →
      ∀ r ∈ rs, ∃ t, rowGet r.properties "network_id" = some t ∧
        (r.grouped_from ≠ [] → containsId C.networks t = true) ∧
        ∀ g ∈ r.grouped_from, containsId C.networks g = false) :
    runNetworksStage (ObjectRule.new config cols0) C rep =
      Except.ok
        (C, rep ++ stageNoopEntries "network_id" "network"
          config.networks_rules) := by
  rcases hnr : config.networks_rules with _ | rs
  · unfold runNetworksStage ObjectRule.new
    simp [hnr, stageNoopEntries]
  · unfold runNetworksStage ObjectRule.new
    simp only [hnr, Option.map_some']
    rw [networks_pass_noop _ C rs (H rs hnr) rep]
    simp [stageNoopEntries]

theorem commercial_stage_noop (config : ObjectRuleConfiguration)
    (cols0 C : Collections) (rep : Report)
    (H : ∀ rs, config.commercial_modes_rules = some rs →
      ∀ r ∈ rs, ∃ t, rowGet r.properties "commercial_mode_id" = some t ∧
        (r.grouped_from ≠ [] → containsId C.commercial_modes t = true) ∧
        ∀ g ∈ r.grouped_from, containsId C.commercial_modes g = false) :
    runCommercialModesStage (ObjectRule.new config cols0) C rep =
      Except.ok
        (C, rep ++ stageNoopEntries "commercial_mode_id" "commercial mode"
          config.commercial_modes_rules) := by
  rcases hnr : config.commercial_modes_rules with _ | rs
  · unfold runCommercialModesStage ObjectRule.new
    simp [hnr, stageNoopEntries]
  · unfold runCommercialModesStage ObjectRule.new
    simp only [hnr, Option.map_some']
    rw [commercial_pass_noop _ C rs (H rs hnr) rep]
    simp [stageNoopEntries]

theorem physical_stage_noop (config : ObjectRuleConfiguration)
    (cols0 C : Collections) (rep : Report)
    (H : ∀ rs, config.physical_modes_rules = some rs →
      ∀ r ∈ rs, ∃ t, rowGet r.properties "physical_mode_id" = some t ∧
        (r.grouped_from ≠ [] → containsId C.physical_modes t = true) ∧
        ∀ g ∈ r.grouped_from, containsId C.physical_modes g = false) :
    runPhysicalModesStage (ObjectRule.new config cols0) C rep =
      Except.ok
        (C, rep ++ stageNoopEntries "physical_mode_id" "physical mode"
          config.physical_modes_rules) := by
  rcases hnr : config.physical_modes_rules with _ | rs
  · unfold runPhysicalModesStage ObjectRule.new
    simp [hnr, stageNoopEntries]
  · unfold runPhysicalModesStage ObjectRule.new
    simp only [hnr, Option.map_some']
    rw [physical_pass_noop _ C rs (H rs hnr) rep]
    simp [stageNoopEntries]

theorem mem_rulesNoopEntries (id_key kind : String)
    (rules : List ObjectProperties) (r : ObjectProperties) (g : String)
    (hr : r ∈ rules) (hg : g ∈ r.grouped_from)
    (hkey : ∃ t, rowGet r.properties id_key = some t) :
    ReportEntry.identifierNotFound g ∈ rulesNoopEntries id_key kind rules := by
  obtain ⟨t, ht⟩ := hkey
  refine List.mem_flatMap.mpr ⟨r, hr, ?_⟩
  unfold ruleNoopEntries
  rw [ht]
  simp only []
  have hne : ¬ r.grouped_from.isEmpty = true := by
    rcases hgf : r.grouped_from with _ | ⟨a, l⟩
    · rw [hgf] at hg; cases hg
    · simp
  rw [if_neg hne]
  exact List.mem_append_left _ (List.mem_map.mpr ⟨g, hg, rfl⟩)

theorem apply_rules_noop (config : ObjectRuleConfiguration)
    (cols0 C : Collections)
    (HN : ∀ rs, config.networks_rules = some rs →
      ∀ r ∈ rs, ∃ t, rowGet r.properties "network_id" = some t ∧
        (r.grouped_from ≠ [] → containsId C.networks t = true) ∧
        ∀ g ∈ r.grouped_from, containsId C.networks g = false)
    (HC : ∀ rs, config.commercial_modes_rules = some rs →
      ∀ r ∈ rs, ∃ t, rowGet r.properties "commercial_mode_id" = some t ∧
        (r.grouped_from ≠ [] → containsId C.commercial_modes t = true) ∧
        ∀ g ∈ r.grouped_from, containsId C.commercial_modes g = false)
    (HP : ∀ rs, config.physical_modes_rules = some rs →
      ∀ r ∈ rs, ∃ t, rowGet r.properties "physical_mode_id" = some t ∧
        (r.grouped_from ≠ [] → containsId C.physical_modes t = true) ∧
        ∀ g ∈ r.grouped_from, containsId C.physical_modes g = false) :
    (ObjectRule.new config cols0).apply_rules C [] =
      Except.ok (C,
        (([] ++ stageNoopEntries "network_id" "network" config.networks_rules) ++
          stageNoopEntries "commercial_mode_id" "commercial mode"
            config.commercial_modes_rules) ++
        stageNoopEntries "physical_mode_id" "physical mode"
          config.physical_modes_rules) := by
  unfold ObjectRule.apply_rules
  rw [networks_stage_noop config cols0 C [] HN]
  simp only []
  rw [commercial_stage_noop config cols0 C _ HC]
  simp only []
  rw [physical_stage_noop config cols0 C _ HP]

theorem first_run_noop_conditions (config : ObjectRuleConfiguration)
    (cols0 cols1 : Collections) (rep1 : Report)
    (h1 : (ObjectRule.new config cols0).apply_rules cols0 [] =
      Except.ok (cols1, rep1))
    (hprovN : ∀ rs, config.networks_rules = some rs →
      ∀ r ∈ rs, ∀ g ∈ r.grouped_from, g ∉ ruleTargets "network_id" rs)
    (hprovC : ∀ rs, config.commercial_modes_rules = some rs →
      ∀ r ∈ rs, ∀ g ∈ r.grouped_from, g ∉ ruleTargets "commercial_mode_id" rs)
    (hprovP : ∀ rs, config.physical_modes_rules = some rs →
      ∀ r ∈ rs, ∀ g ∈ r.grouped_from, g ∉ ruleTargets "physical_mode_id" rs) :
    (∀ rs, config.networks_rules = some rs →
      ∀ r ∈ rs, ∃ t, rowGet r.properties "network_id" = some t ∧
        (r.grouped_from ≠ [] → containsId cols1.networks t = true) ∧
        ∀ g ∈ r.grouped_from, containsId cols1.networks g = false) ∧
    (∀ rs, config.commercial_modes_rules = some rs →
      ∀ r ∈ rs, ∃ t, rowGet r.properties "commercial_mode_id" = some t ∧
        (r.grouped_from ≠ [] → containsId cols1.commercial_modes t = true) ∧
        ∀ g ∈ r.grouped_from, containsId cols1.commercial_modes g = false) ∧
    (∀ rs, config.physical_modes_rules = some rs →
      ∀ r ∈ rs, ∃ t, rowGet r.properties "physical_mode_id" = some t ∧
        (r.grouped_from ≠ [] → containsId cols1.physical_modes t = true) ∧
        ∀ g ∈ r.grouped_from, containsId cols1.physical_modes g = false) := by
  obtain ⟨colsA, repA, colsB, repB, hN, hC, hP⟩ :=
    apply_rules_elim (ObjectRule.new config cols0) cols0 [] cols1 rep1 h1
  have hBnet : colsB.networks = colsA.networks := by
    rcases commercial_stage_elim config cols0 colsA repA colsB repB hC with
      ⟨_, heq, _⟩ | ⟨rs, _, hpass⟩
    · rw [heq]
    · exact (commercial_pass_frame _ repA colsA rs colsB repB hpass).1
  have h1net : cols1.networks = colsB.networks := by
    rcases physical_stage_elim config cols0 colsB repB cols1 rep1 hP with
      ⟨_, heq, _⟩ | ⟨rs, _, hpass⟩
    · rw [heq]
    · exact (physical_pass_frame _ repB colsB rs cols1 rep1 hpass).1
  have hBcm : colsB.commercial_modes = colsB.commercial_modes := rfl
  have h1cm : cols1.commercial_modes = colsB.commercial_modes := by
    rcases physical_stage_elim config cols0 colsB repB cols1 rep1 hP with
      ⟨_, heq, _⟩ | ⟨rs, _, hpass⟩
    · rw [heq]
    · exact (physical_pass_frame _ repB colsB rs cols1 rep1 hpass).2.2.1
  refine ⟨?_, ?_, ?_⟩
  · intro rs hnr r hr
    rcases networks_stage_elim config cols0 cols0 [] colsA repA hN with
      ⟨hnone, _, _⟩ | ⟨rs2, hnr2, hpass⟩
    · rw [hnr] at hnone; cases hnone
    · rw [hnr] at hnr2
      obtain rfl := Option.some.inj hnr2
      obtain ⟨t, ht⟩ :=
        networks_pass_checks_ok _ [] cols0 rs colsA repA hpass r hr
      have hnt : ∀ r2 ∈ rs, t ∉ r2.grouped_from := by
        intro r2 hr2 hmem
        exact hprovN rs hnr r2 hr2 t hmem
          (mem_ruleTargets "network_id" rs r t hr ht)
      refine ⟨t, ht, ?_, ?_⟩
      · intro hne
        rw [h1net, hBnet]
        exact networks_pass_target_present _ [] cols0 rs colsA repA hpass
          r hr t ht hne hnt
      · intro g hg
        rw [h1net, hBnet]
        exact networks_pass_absorbed_absent _ [] cols0 rs colsA repA hpass
          r hr g hg (hprovN rs hnr r hr g hg)
  · intro rs hnr r hr
    rcases commercial_stage_elim config cols0 colsA repA colsB repB hC with
      ⟨hnone, _, _⟩ | ⟨rs2, hnr2, hpass⟩
    · rw [hnr] at hnone; cases hnone
    · rw [hnr] at hnr2
      obtain rfl := Option.some.inj hnr2
      obtain ⟨t, ht⟩ :=
        commercial_pass_checks_ok _ repA colsA rs colsB repB hpass r hr
      have hnt : ∀ r2 ∈ rs, t ∉ r2.grouped_from := by
        intro r2 hr2 hmem
        exact hprovC rs hnr r2 hr2 t hmem
          (mem_ruleTargets "commercial_mode_id" rs r t hr ht)
      refine ⟨t, ht, ?_, ?_⟩
      · intro hne
        rw [h1cm]
        exact commercial_pass_target_present _ repA colsA rs colsB repB hpass
          r hr t ht hne hnt
      · intro g hg
        rw [h1cm]
        exact commercial_pass_absorbed_absent _ repA colsA rs colsB repB hpass
          r hr g hg (hprovC rs hnr r hr g hg)
  · intro rs hnr r hr
    rcases physical_stage_elim config cols0 colsB repB cols1 rep1 hP with
      ⟨hnone, _, _⟩ | ⟨rs2, hnr2, hpass⟩
    · rw [hnr] at hnone; cases hnone
    · rw [hnr] at hnr2
      obtain rfl := Option.some.inj hnr2
      obtain ⟨t, ht⟩ :=
        physical_pass_checks_ok _ repB colsB rs cols1 rep1 hpass r hr
      have hnt : ∀ r2 ∈ rs, t ∉ r2.grouped_from := by
        intro r2 hr2 hmem
        exact hprovP rs hnr r2 hr2 t hmem
          (mem_ruleTargets "physical_mode_id" rs r t hr ht)
      refine ⟨t, ht, ?_, ?_⟩
      · intro hne
        exact physical_pass_target_present _ repB colsB rs cols1 rep1 hpass
          r hr t ht hne hnt
      · intro g hg
        exact physical_pass_absorbed_absent _ repB colsB rs cols1 rep1 hpass
          r hr g hg (hprovP rs hnr r hr g hg)

theorem restr_fold_general (collections : Collections)
    (rows : List TicketUseRestriction) :
    ∀ (acc : List TicketUseRestriction) (rep : Report),
      rows.foldl (restrStep collections) (acc, rep) =
        (acc ++ rows.filter (restrictionKept collections),
         rep ++ rows.flatMap (restrictionEntries collections)) := by
  induction rows with
  | nil =>
    intro acc rep
    simp
  | cons r rest ih =>
    intro acc rep
    rw [List.foldl_cons]
    rcases hrt : r.restriction_type with _ | _
    · by_cases ho : (getById collections.stop_areas r.use_origin).isNone = true
      · have hstep : restrStep collections (acc, rep) r =
            (acc, rep ++ [ReportEntry.originNotFound r.use_origin]) := by
          unfold restrStep
          rw [hrt]
          simp only []
          rw [if_pos ho]
        have hkept : restrictionKept collections r = false := by
          unfold restrictionKept
          rw [hrt]
          simp only []
          rw [Option.isNone_iff_eq_none] at ho
          rw [ho]
          rfl
        have hent : restrictionEntries collections r =
            [ReportEntry.originNotFound r.use_origin] := by
          unfold restrictionEntries
          rw [hrt]
          simp only []
          rw [if_pos ho]
        rw [hstep, ih]
        rw [List.filter_cons, hkept]
        rw [List.flatMap_cons, hent]
        simp [List.append_assoc]
      · by_cases hd :
            (getById collections.stop_areas r.use_destination).isNone = true
        · have hstep : restrStep collections (acc, rep) r =
              (acc, rep ++ [ReportEntry.destinationNotFound r.use_destination]) := by
            unfold restrStep
            rw [hrt]
            simp only []
            rw [if_neg ho, if_pos hd]
          have hkept : restrictionKept collections r = false := by
            unfold restrictionKept
            rw [hrt]
            simp only []
            rw [Option.isNone_iff_eq_none] at hd
            rw [hd]
            simp [Option.not_isSome_iff_eq_none.mpr]
          have hent : restrictionEntries collections r =
              [ReportEntry.destinationNotFound r.use_destination] := by
            unfold restrictionEntries
            rw [hrt]
            simp only []
            rw [if_neg ho, if_pos hd]
          rw [hstep, ih]
          rw [List.filter_cons, hkept]
          rw [List.flatMap_cons, hent]
          simp [List.append_assoc]
        · have hstep : restrStep collections (acc, rep) r = (acc ++ [r], rep) := by
            unfold restrStep
            rw [hrt]
            simp only []
            rw [if_neg ho, if_neg hd]
          have hkept : restrictionKept collections r = true := by
            unfold restrictionKept
            rw [hrt]
            simp only []
            rw [Bool.not_eq_true, Option.isNone_eq_false_iff] at ho hd
            rw [ho, hd]
            rfl
          have hent : restrictionEntries collections r = [] := by
            unfold restrictionEntries
            rw [hrt]
            simp only []
            rw [if_neg ho, if_neg hd]
          rw [hstep, ih]
          rw [List.filter_cons, hkept]
          rw [List.flatMap_cons, hent]
          simp [List.append_assoc]
    · have hstep : restrStep collections (acc, rep) r = (acc ++ [r], rep) := by
        unfold restrStep
        rw [hrt]
      have hkept : restrictionKept collections r = true := by
        unfold restrictionKept
        rw [hrt]
      have hent : restrictionEntries collections r = [] := by
        unfold restrictionEntries
        rw [hrt]
      rw [hstep, ih]
      rw [List.filter_cons, hkept]
      rw [List.flatMap_cons, hent]
      simp [List.append_assoc]

/-! ## Claim theorems -/

/-- C1 (code_bug evaluation): the perimeter-validation loop of
fill_ticket_use_perimeters, run on a Network-typed record whose object_id N5
is absent from the Network collection, KEEPS the record and reports nothing,
while a record whose object_id N1 exists is DROPPED with a report entry
reading not-found: the polarity is the inverse of the claim (kept iff the
target exists, dropped and reported iff absent). -/
theorem claim_C1_code_eval :
    fillPerimetersRecords c1Collections [c1RowMissing, c1RowPresent] [] =
      ([c1RowMissing], [ReportEntry.networkNotFound "N1"]) := by
  decide

/-- C2: read_farev2 never consults the archive member
ticket_use_restrictions.txt (the restriction collection is parsed from
ticket_use_perimeters.txt a second time), so two archives agreeing on every
member except ticket_use_restrictions.txt yield identical collections and
identical reports. -/
theorem claim_C2 (collections : Collections) (a1 a2 : Archive)
    (report : Report)
    (h : ∀ n, n ≠ "ticket_use_restrictions.txt" → a1 n = a2 n) :
    read_farev2 collections a1 report = read_farev2 collections a2 report := by
  have h1 := h "tickets.txt" (by decide)
  have h2 := h "ticket_uses.txt" (by decide)
  have h3 := h "ticket_prices.txt" (by decide)
  have h4 := h "ticket_use_perimeters.txt" (by decide)
  unfold read_farev2 fill_collection_with_id fill_collection
    fill_ticket_use_perimeters fill_ticket_use_restrictions
  rw [h1, h2, h3, h4]

/-- C2 witness: two concrete archives differing exactly in the presence of
ticket_use_restrictions.txt produce the same result. -/
theorem claim_C2_witness :
    read_farev2 emptyCollections c2ArchiveA [] =
      read_farev2 emptyCollections c2ArchiveB [] :=
  claim_C2 emptyCollections c2ArchiveA c2ArchiveB []
    (fun n hn => by
      unfold c2ArchiveA c2ArchiveB
      rw [if_neg hn])

/-- C3 counterexample: a priced ticket T1 survives sanitize_tickets although
no TicketUse record exists at all, so no resolution through a TicketUse
record is possible: the code compares the ticket_id of the price directly
with the ticket_use_id values of the perimeters and restrictions. -/
theorem claim_C3_counterexample :
    (sanitize_tickets c3Collections).ticket_prices = [⟨"T1"⟩] ∧
      c3Collections.ticket_uses = [] ∧
      ticketPriceTransitiveSupport c3Collections ⟨"T1"⟩ = false := by
  decide

/-- C3 amended: a TicketPrice row survives sanitize_tickets exactly when its
ticket_id occurs directly among the ticket_use_id values of the surviving
perimeters and restrictions (no TicketUse indirection is performed). -/
theorem claim_C3_amended (collections : Collections) (p : TicketPrice) :
    p ∈ (sanitize_tickets collections).ticket_prices ↔
      p ∈ collections.ticket_prices ∧
        ((collections.ticket_use_perimeters.map (fun t => t.ticket_use_id) ++
            collections.ticket_use_restrictions.map (fun t => t.ticket_use_id)).contains
          p.ticket_id) = true := by
  simp [sanitize_tickets, List.mem_filter]

/-- C4 (Scenario A): consolidating N2 and N3 into the absent target N1 with
dependent lines L1 and L2 yields a Network collection containing N1 (named
Merged) and neither N2 nor N3, and both lines now reference N1. -/
theorem claim_C4 :
    isOk ((ObjectRule.new c4Config c4Collections).apply_rules c4Collections [])
        = true ∧
      containsId c4Result.1.networks "N1" = true ∧
      getById c4Result.1.networks "N1" = some ⟨"N1", "Merged"⟩ ∧
      containsId c4Result.1.networks "N2" = false ∧
      containsId c4Result.1.networks "N3" = false ∧
      c4Result.1.lines.map (fun l => l.network_id) = ["N1", "N1"] := by
  decide

/-- C7 (code_bug evaluation): on an archive whose four required members are
present and whose ticket_use_restrictions.txt is ABSENT, the run succeeds but
the restriction collection is NOT empty: it is parsed from the
ticket_use_perimeters.txt member (file-name slip at line 230 of the source),
whose record here deserializes as a Zone restriction. -/
theorem claim_C7_code_eval :
    isOk (read_farev2 emptyCollections c7Archive []) = true ∧
      c7Archive "ticket_use_restrictions.txt" = none ∧
      c7Result.1.ticket_use_restrictions =
        [⟨"U1", RestrictionType.Zone, "SA1", "SA2"⟩] := by
  decide

/-- C8: the restriction-validation loop keeps exactly the records accepted by
restrictionKept (OriginDestination records with both stop areas present, and
every Zone record) and appends exactly the entries of restrictionEntries (one
origin entry when the origin is missing, the destination being neither
checked nor reported for that record; otherwise one destination entry when
only the destination is missing; nothing for accepted or Zone records). -/
theorem claim_C8 (collections : Collections)
    (rows : List TicketUseRestriction) (report : Report) :
    fillRestrictionsRecords collections rows report =
      (rows.filter (restrictionKept collections),
       report ++ rows.flatMap (restrictionEntries collections)) := by
  unfold fillRestrictionsRecords
  rw [restr_fold_general collections rows [] report]
  simp

/-- C10: a Line-typed perimeter record is silently discarded by the
validation loop of fill_ticket_use_perimeters: removing it from the row list
changes neither the resulting collection nor the report. -/
theorem claim_C10 (collections : Collections)
    (pre post : List TicketUsePerimeter) (report : Report)
    (r : TicketUsePerimeter) (h : r.object_type = ObjectType.Line) :
    fillPerimetersRecords collections (pre ++ r :: post) report =
      fillPerimetersRecords collections (pre ++ post) report := by
  unfold fillPerimetersRecords
  rw [List.foldl_append, List.foldl_append, List.foldl_cons]
  have hstep : perimStep collections
      (pre.foldl (perimStep collections) ([], report)) r =
      pre.foldl (perimStep collections) ([], report) := by
    unfold perimStep
    rw [h]
  rw [hstep]

/-- C10 witness: a concrete Line-typed record between two Network-typed ones
is discarded without trace. -/
theorem claim_C10_witness :
    fillPerimetersRecords c10Collections (c10OtherRows ++ c10LineRow :: []) [] =
      fillPerimetersRecords c10Collections (c10OtherRows ++ []) [] :=
  claim_C10 c10Collections c10OtherRows [] [] c10LineRow (by decide)

/-- C9: for a rule with a non-empty absorption list each of whose identifiers
is either absent from the Network collection or without an entry in the
reference index, the networks pass emits the per-identifier not-found entries
followed by exactly one rule-not-applied entry for the target, repoints no
line and no perimeter, and still inserts the target when it was absent. -/
theorem claim_C9 (lbn : String → Option (List Nat)) (report : Report)
    (cols : Collections) (pyr : ObjectProperties) (t : String)
    (hkey : rowGet pyr.properties "network_id" = some t)
    (hne : pyr.grouped_from ≠ [])
    (hdep : ∀ g ∈ pyr.grouped_from,
      containsId cols.networks g = false ∨ lbn g = none) :
    ∃ cols',
      check_and_apply_networks_rules lbn report cols [pyr] =
        Except.ok (cols',
          report ++
            pyr.grouped_from.filterMap (fun g =>
              if containsId cols.networks g then none
              else some (ReportEntry.identifierNotFound g)) ++
            [ReportEntry.ruleNotApplied "network" t]) ∧
      cols'.lines = cols.lines ∧
      cols'.ticket_use_perimeters = cols.ticket_use_perimeters ∧
      (containsId cols.networks t = false →
        containsId cols'.networks t = true) := by
  have hgf : ¬ pyr.grouped_from.isEmpty = true := by
    rcases hg : pyr.grouped_from with _ | ⟨a, l⟩
    · exact absurd hg hne
    · simp
  have hck : pyr.check "network_id" report = Except.ok (some t, report) := by
    unfold ObjectProperties.check
    rw [hkey]
    simp only []
    rw [if_neg hgf]
  have hG : ∀ g ∈ pyr.grouped_from, containsId cols.networks g = false ∨
      ∀ s : List Line × List TicketUsePerimeter,
        repointNetworkDeps lbn t g s = (s, false) := by
    intro g hg
    rcases hdep g hg with hcg | hnone
    · exact Or.inl hcg
    · refine Or.inr ?_
      intro s
      unfold repointNetworkDeps
      rw [hnone]
  by_cases hc : containsId cols.networks t = true
  · have hstep : networksRuleStep lbn ⟨cols, report, []⟩ pyr =
        Except.ok
          ⟨{ cols with
              networks := retainNotGrouped cols.networks pyr.grouped_from },
           report ++
             pyr.grouped_from.filterMap (fun g =>
               if containsId cols.networks g then none
               else some (ReportEntry.identifierNotFound g)) ++
             [ReportEntry.ruleNotApplied "network" t], []⟩ := by
      unfold networksRuleStep
      rw [show (⟨cols, report, []⟩ : PassState Network).report = report from rfl,
        hck]
      simp only []
      rw [if_pos hc]
      simp only [ObjectProperties.regroup]
      rw [regroupLoop_noop cols.networks (repointNetworkDeps lbn t)
        pyr.grouped_from hG]
      rfl
    have hfold : foldSteps (networksRuleStep lbn) ⟨cols, report, []⟩ [pyr] =
        Except.ok
          ⟨{ cols with
              networks := retainNotGrouped cols.networks pyr.grouped_from },
           report ++
             pyr.grouped_from.filterMap (fun g =>
               if containsId cols.networks g then none
               else some (ReportEntry.identifierNotFound g)) ++
             [ReportEntry.ruleNotApplied "network" t], []⟩ := by
      unfold foldSteps
      rw [hstep]
      rfl
    refine ⟨{ cols with
        networks := retainNotGrouped cols.networks pyr.grouped_from }, ?_,
      rfl, rfl, ?_⟩
    · unfold check_and_apply_networks_rules
      rw [hfold]
      rfl
    · intro hf
      rw [hf] at hc
      exact absurd hc Bool.false_ne_true
  · rw [Bool.not_eq_true] at hc
    have hstep : networksRuleStep lbn ⟨cols, report, []⟩ pyr =
        Except.ok
          ⟨{ cols with
              networks := retainNotGrouped cols.networks pyr.grouped_from },
           report ++
             pyr.grouped_from.filterMap (fun g =>
               if containsId cols.networks g then none
               else some (ReportEntry.identifierNotFound g)) ++
             [ReportEntry.ruleNotApplied "network" t],
           [⟨t, (rowGet pyr.properties "name").getD ""⟩]⟩ := by
      unfold networksRuleStep
      rw [show (⟨cols, report, []⟩ : PassState Network).report = report from rfl,
        hck]
      simp only []
      rw [if_neg (by rw [hc]; exact Bool.false_ne_true)]
      rw [deserializeNetwork_of_key pyr.properties t hkey]
      simp only [Option.map_some']
      simp only [ObjectProperties.regroup]
      rw [regroupLoop_noop cols.networks (repointNetworkDeps lbn t)
        pyr.grouped_from hG]
      rfl
    have hfold : foldSteps (networksRuleStep lbn) ⟨cols, report, []⟩ [pyr] =
        Except.ok
          ⟨{ cols with
              networks := retainNotGrouped cols.networks pyr.grouped_from },
           report ++
             pyr.grouped_from.filterMap (fun g =>
               if containsId cols.networks g then none
               else some (ReportEntry.identifierNotFound g)) ++
             [ReportEntry.ruleNotApplied "network" t],
           [⟨t, (rowGet pyr.properties "name").getD ""⟩]⟩ := by
      unfold foldSteps
      rw [hstep]
      rfl
    refine ⟨{ cols with
        networks :=
          extendWithId (retainNotGrouped cols.networks pyr.grouped_from)
            [⟨t, (rowGet pyr.properties "name").getD ""⟩] }, ?_,
      rfl, rfl, ?_⟩
    · unfold check_and_apply_networks_rules
      rw [hfold]
    · intro _
      exact extendWithId_contains_of_mem _ _ _
        (List.mem_singleton.mpr rfl)

/-- C9 witness (Scenario B): target N1 absent, absorption list [N9] with N9
never existing, network N0 with dependent line L1 untouched. -/
theorem claim_C9_witness :
    ∃ cols',
      check_and_apply_networks_rules
          (linesByNetwork c9Collections.networks c9Collections.lines) []
          c9Collections [c9Rule] =
        Except.ok (cols',
          [] ++
            c9Rule.grouped_from.filterMap (fun g =>
              if containsId c9Collections.networks g then none
              else some (ReportEntry.identifierNotFound g)) ++
            [ReportEntry.ruleNotApplied "network" "N1"]) ∧
      cols'.lines = c9Collections.lines ∧
      cols'.ticket_use_perimeters = c9Collections.ticket_use_perimeters ∧
      (containsId c9Collections.networks "N1" = false →
        containsId cols'.networks "N1" = true) :=
  claim_C9 (linesByNetwork c9Collections.networks c9Collections.lines) []
    c9Collections c9Rule "N1" (by decide) (by decide) (by decide)

/-- C5 counterexample: N2 is present at the start and occurs in the first
rule absorption list, yet after the whole pass N2 is again present in the
Network collection, because the second rule has N2 as its target and its
staged entity is inserted at the end of the pass. -/
theorem claim_C5_counterexample :
    containsId c5Collections.networks "N2" = true ∧
      "N2" ∈ (c5Rules.headD ⟨[], []⟩).grouped_from ∧
      isOk
        (check_and_apply_networks_rules
          (linesByNetwork c5Collections.networks c5Collections.lines) []
          c5Collections c5Rules) = true ∧
      containsId c5Result.1.networks "N2" = true := by
  decide

/-- C5 amended: after a whole networks pass, every identifier named in some
rule absorption list is absent from the Network collection, provided it is
not the target identifier of any rule of the pass (a target identifier can
be re-introduced by the final insertion of staged entities; an identifier
never present is only reported, nothing being removed). -/
theorem claim_C5_amended (lbn : String → Option (List Nat)) (report : Report)
    (cols : Collections) (rules : List ObjectProperties)
    (cols' : Collections) (report' : Report)
    (h : check_and_apply_networks_rules lbn report cols rules =
      Except.ok (cols', report'))
    (r : ObjectProperties) (hr : r ∈ rules) (g : String)
    (hg : g ∈ r.grouped_from)
    (hng : g ∉ ruleTargets "network_id" rules) :
    containsId cols'.networks g = false :=
  networks_pass_absorbed_absent lbn report cols rules cols' report' h
    r hr g hg hng

/-- C5 witness: a single rule absorbing the present network N2 into the
target N1 leaves N2 absent after the pass. -/
theorem claim_C5_witness :
    check_and_apply_networks_rules
        (linesByNetwork c5wCollections.networks c5wCollections.lines) []
        c5wCollections c5wRules = Except.ok (c5wResult.1, c5wResult.2) ∧
      containsId c5wResult.1.networks "N2" = false := by
  refine ⟨rfl, ?_⟩
  exact claim_C5_amended
    (linesByNetwork c5wCollections.networks c5wCollections.lines) []
    c5wCollections c5wRules c5wResult.1 c5wResult.2 rfl
    ⟨[("network_id", "N1")], ["N2"]⟩ (by decide) "N2" (by decide) (by decide)

/-- C6 counterexample: a rule whose target N1 is also its own absorbed
identifier makes the first run empty the Network collection, and the second
run, against the already-consolidated store, re-inserts N1: the second run is
not mutation-free. -/
theorem claim_C6_counterexample :
    isOk ((ObjectRule.new c6Config c6Collections).apply_rules c6Collections [])
        = true ∧
      isOk ((ObjectRule.new c6Config c6FirstRun.1).apply_rules c6FirstRun.1 [])
        = true ∧
      c6FirstRun.1.networks = [] ∧
      c6SecondRun.1.networks = [⟨"N1", ""⟩] := by
  decide

/-- C6 amended: provided no rule absorption list contains the target
identifier of any rule of the same category, running the same rule set a
second time against the consolidated store succeeds, leaves every collection
unchanged, and reports every absorption identifier as non-existent. -/
theorem claim_C6_amended (config : ObjectRuleConfiguration)
    (cols0 cols1 : Collections) (rep1 : Report)
    (h1 : (ObjectRule.new config cols0).apply_rules cols0 [] =
      Except.ok (cols1, rep1))
    (hprovN : ∀ rs, config.networks_rules = some rs →
      ∀ r ∈ rs, ∀ g ∈ r.grouped_from, g ∉ ruleTargets "network_id" rs)
    (hprovC : ∀ rs, config.commercial_modes_rules = some rs →
      ∀ r ∈ rs, ∀ g ∈ r.grouped_from,
        g ∉ ruleTargets "commercial_mode_id" rs)
    (hprovP : ∀ rs, config.physical_modes_rules = some rs →
      ∀ r ∈ rs, ∀ g ∈ r.grouped_from, g ∉ ruleTargets "physical_mode_id" rs) :
    ∃ rep2,
      (ObjectRule.new config cols1).apply_rules cols1 [] =
        Except.ok (cols1, rep2) ∧
      (∀ rs, config.networks_rules = some rs → ∀ r ∈ rs,
        ∀ g ∈ r.grouped_from, ReportEntry.identifierNotFound g ∈ rep2) ∧
      (∀ rs, config.commercial_modes_rules = some rs → ∀ r ∈ rs,
        ∀ g ∈ r.grouped_from, ReportEntry.identifierNotFound g ∈ rep2) ∧
      (∀ rs, config.physical_modes_rules = some rs → ∀ r ∈ rs,
        ∀ g ∈ r.grouped_from, ReportEntry.identifierNotFound g ∈ rep2) := by
  obtain ⟨HN, HC, HP⟩ :=
    first_run_noop_conditions config cols0 cols1 rep1 h1 hprovN hprovC hprovP
  refine ⟨_, apply_rules_noop config cols1 cols1 HN HC HP, ?_, ?_, ?_⟩
  · intro rs hnr r hr g hg
    have hkey : ∃ t, rowGet r.properties "network_id" = some t := by
      obtain ⟨t, ht, _, _⟩ := HN rs hnr r hr
      exact ⟨t, ht⟩
    have hm : ReportEntry.identifierNotFound g ∈
        stageNoopEntries "network_id" "network" config.networks_rules := by
      rw [hnr]
      exact mem_rulesNoopEntries "network_id" "network" rs r g hr hg hkey
    exact List.mem_append.mpr (Or.inl (List.mem_append.mpr (Or.inl
      (List.mem_append.mpr (Or.inr hm)))))
  · intro rs hnr r hr g hg
    have hkey : ∃ t, rowGet r.properties "commercial_mode_id" = some t := by
      obtain ⟨t, ht, _, _⟩ := HC rs hnr r hr
      exact ⟨t, ht⟩
    have hm : ReportEntry.identifierNotFound g ∈
        stageNoopEntries "commercial_mode_id" "commercial mode"
          config.commercial_modes_rules := by
      rw [hnr]
      exact mem_rulesNoopEntries "commercial_mode_id" "commercial mode"
        rs r g hr hg hkey
    exact List.mem_append.mpr (Or.inl (List.mem_append.mpr (Or.inr hm)))
  · intro rs hnr r hr g hg
    have hkey : ∃ t, rowGet r.properties "physical_mode_id" = some t := by
      obtain ⟨t, ht, _, _⟩ := HP rs hnr r hr
      exact ⟨t, ht⟩
    have hm : ReportEntry.identifierNotFound g ∈
        stageNoopEntries "physical_mode_id" "physical mode"
          config.physical_modes_rules := by
      rw [hnr]
      exact mem_rulesNoopEntries "physical_mode_id" "physical mode"
        rs r g hr hg hkey
    exact List.mem_append.mpr (Or.inr hm)

/-- C6 witness: one networks rule absorbing NA into the fresh target NT; the
first run consolidates, the second run leaves the store unchanged and reports
NA as non-existent. -/
theorem claim_C6_witness :
    (ObjectRule.new c6wConfig c6wCollections).apply_rules c6wCollections [] =
        Except.ok (c6wFirstRun.1, c6wFirstRun.2) ∧
      ∃ rep2,
        (ObjectRule.new c6wConfig c6wFirstRun.1).apply_rules c6wFirstRun.1 [] =
          Except.ok (c6wFirstRun.1, rep2) ∧
        (∀ rs, c6wConfig.networks_rules = some rs → ∀ r ∈ rs,
          ∀ g ∈ r.grouped_from, ReportEntry.identifierNotFound g ∈ rep2) ∧
        (∀ rs, c6wConfig.commercial_modes_rules = some rs → ∀ r ∈ rs,
          ∀ g ∈ r.grouped_from, ReportEntry.identifierNotFound g ∈ rep2) ∧
        (∀ rs, c6wConfig.physical_modes_rules = some rs → ∀ r ∈ rs,
          ∀ g ∈ r.grouped_from, ReportEntry.identifierNotFound g ∈ rep2) := by
  refine ⟨rfl, ?_⟩
  refine claim_C6_amended c6wConfig c6wCollections c6wFirstRun.1 c6wFirstRun.2
    rfl ?_ ?_ ?_
  · intro rs hrs
    have h2 : [(⟨[("network_id", "NT")], ["NA"]⟩ : ObjectProperties)] = rs :=
      Option.some.inj hrs
    rw [← h2]
    decide
  · intro rs hrs
    cases hrs
  · intro rs hrs
    cases hrs
